import Mathlib

/-!
# Attestation service of the beacon chain: latest-attestation pool

A shallow embedding of `beacon-chain/attestation/service.go`.

* The service's mutable fields (`store`, `pooledAttestations`, `poolLimit`) are a
  record that every method takes and hands back.
* `sync.RWMutex` is explicit state: a request for a lock that cannot be granted
  never comes back (`Outcome.blocked`); Go runs deferred calls only when the
  function returns or panics.
* A Go run-time panic (index out of range, division by zero) is `Outcome.panicked`.
* `uint64` values are naturals, reduced modulo `2 ^ 64` where the code can
  overflow; `int` is the 64-bit signed integer.
* The collaborators that live in other packages (`db.BeaconDB`, `helpers`,
  `params`, `bytesutil`) are parameters: `BeaconDB` and `Deps`.
* Protobuf messages are taken with their nested messages present (`Data`,
  `Target`, `Source`, `Crosslink` and the validators are not nil); the map's
  values are pointers and may be nil.
* Metrics and logging do not touch the pool and are left out; so is the recovery from a
  panic in `SafelyHandleMessage`, which lies outside the methods embedded here.

The definitions come first (data model, collaborators, the methods, the batch update in
the specification's words, fixtures), the lemmas and the claims `C1` to `C19` after them.
-/

namespace AttestationPool

/-! ## Data model -/

abbrev Byte := Fin 256

/-- A Go byte slice. -/
abbrev Bytes := List Byte

/-- Checkpoint of `ethpb`: an epoch and a root. -/
structure Checkpoint where
  Epoch : Nat
  Root : Bytes
deriving DecidableEq, Repr

/-- Crosslink of `ethpb`; the service reads the shard only. -/
structure Crosslink where
  Shard : Nat
deriving DecidableEq, Repr

/-- AttestationData of `ethpb`. -/
structure AttestationData where
  BeaconBlockRoot : Bytes
  Source : Checkpoint
  Target : Checkpoint
  Crosslink : Crosslink
deriving DecidableEq, Repr

/-- A `bitfield.Bitlist`: the bits in order; bit `i` belongs to position `i` of the committee. -/
abbrev Bitlist := List Bool

/-- Go `Bitlist.Len`: the number of bits. -/
def Bitlist.Len (b : Bitlist) : Nat := b.length

/-- Go `Bitlist.BitAt`: the bit at `i`, false beyond the length. -/
def Bitlist.BitAt (b : Bitlist) (i : Nat) : Bool := b.getD i false

/-- Attestation of `ethpb`. -/
structure Attestation where
  AggregationBits : Bitlist
  Data : AttestationData
deriving DecidableEq, Repr

/-- AttestationTarget of `pb`: the fork-choice input. -/
structure AttestationTarget where
  Slot : Nat
  BeaconBlockRoot : Bytes
  ParentRoot : Bytes
deriving DecidableEq, Repr

/-- Validator of `ethpb`; the service reads the public key only. -/
structure Validator where
  PublicKey : Bytes
deriving DecidableEq, Repr

/-- BeaconState of `pb`: the validator registry and the slot. -/
structure BeaconState where
  Validators : List Validator
  Slot : Nat
deriving DecidableEq, Repr

/-- A Go `error` value: the adapter's own, or one handed back by a collaborator. -/
inductive Error where
  | invalidValidatorIndex (index : Nat)
  | collaborator (msg : String)
deriving DecidableEq, Repr

/-- How a call ends: it returns a value, it panics, or it waits for a lock for ever. -/
inductive Outcome (α : Type) where
  | returned (v : α)
  | panicked
  | blocked
deriving DecidableEq, Repr

/-- A Go result pair `(*pb.AttestationTarget, error)`. -/
abbrev TargetResult := Option AttestationTarget × Option Error

/-! ## Collaborators (other packages) -/

/-- The three reads of `db.BeaconDB` the service makes. -/
structure BeaconDB where
  HasBlock : Bytes → Bool
  AttestationTarget : Bytes → Option AttestationTarget × Option String
  HeadState : Except String BeaconState

/-- Functions and constants of `helpers`, `params` and `bytesutil`, and one constant of the
Go runtime: `MaxSliceCap` is the largest capacity with which
`make([]*ethpb.Attestation, 0, cap)` succeeds; past it `makeslice` panics with
`cap out of range` (the allocator's limit over the size of a pointer, `2 ^ 45` on amd64). -/
structure Deps where
  SlotsPerEpoch : Nat
  MaxSliceCap : Nat
  CurrentEpoch : BeaconState → Nat
  CrosslinkCommittee : BeaconState → Nat → Nat → Except String (List Nat)
  ActiveValidatorCount : BeaconState → Nat → Except String Nat
  ToBytes48 : Bytes → Bytes
  ToBytes32 : Bytes → Bytes

/-! ## Machine integers -/

/-- Go `int(x)` of a `uint64` on a 64-bit platform: the same 64 bits read as signed. -/
def toInt (x : Nat) : Int :=
  if x % 2 ^ 64 < 2 ^ 63 then ((x % 2 ^ 64 : Nat) : Int) else ((x % 2 ^ 64 : Nat) : Int) - 2 ^ 64

/-- A result of `int` arithmetic, kept in 64 bits (two's complement). -/
def wrapInt64 (x : Int) : Int := (x + 2 ^ 63) % 2 ^ 64 - 2 ^ 63

/-! ## The store and its lock -/

/-- State of a `sync.RWMutex`: whether a writer holds it, and how many readers do. -/
structure RWMutex where
  writer : Bool
  readers : Nat
deriving DecidableEq, Repr

/-- Go `Lock`: granted when nobody holds the mutex; `none` when the caller has to wait. -/
def RWMutex.Lock (mu : RWMutex) : Option RWMutex :=
  if mu.writer || mu.readers != 0 then none else some { mu with writer := true }

/-- Go `Unlock`: releases the writer; `none` is Go's fatal error on a mutex no writer holds. -/
def RWMutex.Unlock (mu : RWMutex) : Option RWMutex :=
  if mu.writer then some { mu with writer := false } else none

/-- Go `RLock`: granted when no writer holds the mutex; `none` when the caller has to wait. -/
def RWMutex.RLock (mu : RWMutex) : Option RWMutex :=
  if mu.writer then none else some { mu with readers := mu.readers + 1 }

/-- Go `RUnlock`: releases one reader; `none` is Go's fatal error when there is none. -/
def RWMutex.RUnlock (mu : RWMutex) : Option RWMutex :=
  if mu.readers = 0 then none else some { mu with readers := mu.readers - 1 }

/-- The store: `map[[48]byte]*ethpb.Attestation` under a `sync.RWMutex`. A key maps to
`none` when absent, to `some none` when present with a nil pointer. -/
structure attestationStore where
  mu : RWMutex
  m : Bytes → Option (Option Attestation)

/-- Go `m[k] = v`. -/
def mapSet (m : Bytes → Option (Option Attestation)) (k : Bytes) (v : Option Attestation) :
    Bytes → Option (Option Attestation) :=
  fun k2 => if k2 = k then some v else m k2

/-- The mutable fields of `Service`. -/
structure Service where
  store : attestationStore
  pooledAttestations : List Attestation
  poolLimit : Int

/-- Go `NewAttestationService`: empty map, empty pool, limit 1. -/
def NewAttestationService : Service :=
  { store := { mu := { writer := false, readers := 0 }, m := fun _ => none }
    pooledAttestations := []
    poolLimit := 1 }

/-! ## The fork-choice adapter -/

/-- Lines 112-125 of `LatestAttestationTarget`, run under the read lock: the map lookup,
the nil check, `HasBlock` and the hand-over to `AttestationTarget`. -/
def lookupTarget (d : Deps) (db : BeaconDB) (a : Service) (pubKey : Bytes) : TargetResult :=
  match a.store.m pubKey with
  | none => (none, none)
  | some none => (none, none)
  | some (some attestation) =>
    let targetRoot := d.ToBytes32 attestation.Data.BeaconBlockRoot
    if !db.HasBlock targetRoot then (none, none)
    else ((db.AttestationTarget targetRoot).1,
          (db.AttestationTarget targetRoot).2.map Error.collaborator)

/-- Go `Service.LatestAttestationTarget` (service.go, lines 103-126). -/
def LatestAttestationTarget (d : Deps) (db : BeaconDB) (a : Service) (beaconState : BeaconState)
    (index : Nat) : Service × Outcome TargetResult :=
  if h : index ≥ beaconState.Validators.length then
    (a, .returned (none, some (.invalidValidatorIndex index)))
  else
    have hlt : index < beaconState.Validators.length := Nat.lt_of_not_ge h
    let validator := beaconState.Validators[index]
    let pubKey := d.ToBytes48 validator.PublicKey
    match a.store.mu.RLock with
    | none => (a, .blocked)
    | some mu =>
      let a := { a with store := { a.store with mu := mu } }
      -- defer a.store.RUnlock()
      let r : TargetResult := lookupTarget d db a pubKey
      match a.store.mu.RUnlock with
      | none => (a, .panicked)
      | some mu => ({ a with store := { a.store with mu := mu } }, .returned r)

/-! ## The update path -/

/-- The deferred `a.store.Unlock()` calls, run when `updateAttestation` returns or panics. -/
def runDeferred : Nat → Service → Option Service
  | 0, a => some a
  | n + 1, a =>
    match a.store.mu.Unlock with
    | none => none
    | some mu => runDeferred n { a with store := { a.store with mu := mu } }

/-- Leaving `updateAttestation` with `defers` deferred unlocks pending. -/
def leave (defers : Nat) (a : Service) (r : Outcome (Option Error)) :
    Service × Outcome (Option Error) :=
  match runDeferred defers a with
  | some a2 => (a2, r)
  | none => (a, .panicked)

/-- Lines 263-273 of `updateAttestation`, run under the write lock: the target boundary
slot in `uint64`, the slot it is compared with (itself when the key has an entry, 0 when it
has none) and the write when the first is greater. -/
def mergeEntry (d : Deps) (m : Bytes → Option (Option Attestation)) (pubkey : Bytes)
    (attestation : Attestation) : Bytes → Option (Option Attestation) :=
  let attTargetBoundarySlot := (attestation.Data.Target.Epoch * d.SlotsPerEpoch) % 2 ^ 64
  let currentAttestationSlot := 0
  let currentAttestationSlot :=
    if (m pubkey).isSome then attTargetBoundarySlot else currentAttestationSlot
  if attTargetBoundarySlot > currentAttestationSlot then mapSet m pubkey (some attestation)
  else m

/-- The loop of `updateAttestation` (service.go, lines 243-281): `n` iterations are left,
the next one is for bit `i`, and `defers` unlocks have been deferred so far. -/
def updateLoop (d : Deps) (beaconState : BeaconState) (attestation : Attestation)
    (committee : List Nat) : Nat → Nat → Nat → Service → Service × Outcome (Option Error)
  | 0, _, defers, a => leave defers a (.returned none)
  | n + 1, i, defers, a =>
    if !attestation.AggregationBits.BitAt i then
      updateLoop d beaconState attestation committee n (i + 1) defers a
    else if h : i ≥ committee.length then
      leave defers a (.returned none)
    else
      have hlt : i < committee.length := Nat.lt_of_not_ge h
      if toInt committee[i] ≥ (beaconState.Validators.length : Int) then
        leave defers a (.returned none)
      else
        match beaconState.Validators[committee[i]]? with
        | none => leave defers a .panicked
        | some validator =>
          let pubkey := d.ToBytes48 validator.PublicKey
          match a.store.mu.Lock with
          | none => (a, .blocked)
          | some mu =>
            -- defer a.store.Unlock()
            let a := { a with store := { mu := mu, m := mergeEntry d a.store.m pubkey attestation } }
            updateLoop d beaconState attestation committee n (i + 1) (defers + 1) a

/-- Go `Service.updateAttestation` (service.go, lines 225-283). -/
def updateAttestation (d : Deps) (a : Service) (beaconState : BeaconState)
    (attestation : Attestation) : Service × Outcome (Option Error) :=
  match d.CrosslinkCommittee beaconState (d.CurrentEpoch beaconState)
      attestation.Data.Crosslink.Shard with
  | .error err => (a, .returned (some (.collaborator err)))
  | .ok committee =>
    updateLoop d beaconState attestation committee attestation.AggregationBits.Len 0 0 a

/-- Go `Service.UpdateLatestAttestation` (service.go, lines 182-192). -/
def UpdateLatestAttestation (d : Deps) (db : BeaconDB) (a : Service)
    (attestation : Attestation) : Service × Outcome (Option Error) :=
  match db.HeadState with
  | .error err => (a, .returned (some (.collaborator err)))
  | .ok beaconState => updateAttestation d a beaconState attestation

/-- The `for ... range attestations` loop of `BatchUpdateLatestAttestation`: an error a
call returns is logged and the loop goes on. -/
def batchLoop (d : Deps) (beaconState : BeaconState) :
    List Attestation → Service → Service × Outcome (Option Error)
  | [], a => (a, .returned none)
  | attestation :: rest, a =>
    match updateAttestation d a beaconState attestation with
    | (a2, .returned _) => batchLoop d beaconState rest a2
    | (a2, .panicked) => (a2, .panicked)
    | (a2, .blocked) => (a2, .blocked)

/-- Go `Service.BatchUpdateLatestAttestation` (service.go, lines 196-214); a nil slice is
`none`. -/
def BatchUpdateLatestAttestation (d : Deps) (db : BeaconDB) (a : Service)
    (attestations : Option (List Attestation)) : Service × Outcome (Option Error) :=
  match attestations with
  | none => (a, .returned none)
  | some atts =>
    match db.HeadState with
    | .error err => (a, .returned (some (.collaborator err)))
    | .ok beaconState => batchLoop d beaconState atts a

/-- Go `Service.InsertAttestationIntoStore` (service.go, lines 219-223). -/
def InsertAttestationIntoStore (a : Service) (pubkey : Bytes) (att : Option Attestation) :
    Service × Outcome Unit :=
  match a.store.mu.Lock with
  | none => (a, .blocked)
  | some mu =>
    let a := { a with store := { a.store with mu := mu } }
    -- defer a.store.Unlock()
    let a := { a with store := { a.store with m := mapSet a.store.m pubkey att } }
    match a.store.mu.Unlock with
    | none => (a, .panicked)
    | some mu => ({ a with store := { a.store with mu := mu } }, .returned ())

/-- Lines 164-170 of `handleAttestation`: the attestations per slot in `uint64`, seventy
per cent of them in `int`, and 1 in place of 0. -/
def newPoolLimit (d : Deps) (count : Nat) : Int :=
  let attPerSlot := (count % 2 ^ 64) / (d.SlotsPerEpoch % 2 ^ 64)
  let poolLimit := Int.tdiv (wrapInt64 (toInt attPerSlot * 7)) 10
  if poolLimit = 0 then poolLimit + 1 else poolLimit

/-- Lines 152-172 of `handleAttestation`, after the batch update: the head state is read
again (`db2`), the pool limit is set from the active validator count, and the pool is
emptied by the allocation of a new one with the limit as its capacity. -/
def resetPool (d : Deps) (db2 : BeaconDB) (a : Service) : Service × Outcome (Option Error) :=
  match db2.HeadState with
  | .error err => (a, .returned (some (.collaborator err)))
  | .ok state =>
    match d.ActiveValidatorCount state (d.CurrentEpoch state) with
    | .error err => (a, .returned (some (.collaborator err)))
    | .ok count =>
      -- count / params.BeaconConfig().SlotsPerEpoch panics on a zero divisor
      if d.SlotsPerEpoch % 2 ^ 64 = 0 then (a, .panicked)
      else
        let a := { a with poolLimit := newPoolLimit d count }
        -- make([]*ethpb.Attestation, 0, a.poolLimit) panics on a negative capacity and on
        -- a capacity past the allocator's limit
        if a.poolLimit < 0 ∨ a.poolLimit > (d.MaxSliceCap : Int) then (a, .panicked)
        else ({ a with pooledAttestations := [] }, .returned none)

/-- Go `Service.handleAttestation` (service.go, lines 145-176), with the calls it makes to
`BatchUpdateLatestAttestation` recorded beside its result: the argument of each call, in the
order of the calls. The database is read twice, by the batch update (`db`) and for the new
pool limit (`db2`). -/
def handleAttestationTraced (d : Deps) (db db2 : BeaconDB) (a : Service)
    (attestation : Attestation) : (Service × Outcome (Option Error)) × List (List Attestation) :=
  let a := { a with pooledAttestations := a.pooledAttestations ++ [attestation] }
  if (a.pooledAttestations.length : Int) > a.poolLimit then
    (match BatchUpdateLatestAttestation d db a (some a.pooledAttestations) with
      | (a, .panicked) => (a, .panicked)
      | (a, .blocked) => (a, .blocked)
      | (a, .returned (some err)) => (a, .returned (some err))
      | (a, .returned none) => resetPool d db2 a,
     [a.pooledAttestations])
  else ((a, .returned none), [])

/-- Go `Service.handleAttestation` (service.go, lines 145-176): the service afterwards and
the way the call ends. -/
def handleAttestation (d : Deps) (db db2 : BeaconDB) (a : Service) (attestation : Attestation) :
    Service × Outcome (Option Error) :=
  (handleAttestationTraced d db db2 a attestation).1

/-- Modelled from the spec: `handler.SafelyHandleMessage` of the package `messagehandler`,
which is not among the sources, guards each message "such that a panic or failure in a
handler does not tear down the loop". With it this is Go `Service.attestationPool`
(service.go, lines 130-143) over the messages received before the context is done, each
with the database as it is read while the message is handled: after a call that returns or
panics the next message is taken, after a call that waits for the lock none is. The result
is the service at the end and the calls of `BatchUpdateLatestAttestation` made. -/
def attestationPool (d : Deps) :
    List (BeaconDB × BeaconDB × Attestation) → Service → Service × List (List Attestation)
  | [], a => (a, [])
  | (db, db2, attestation) :: rest, a =>
    match handleAttestationTraced d db db2 a attestation with
    | ((a2, .blocked), calls) => (a2, calls)
    | ((a2, .panicked), calls) =>
      ((attestationPool d rest a2).1, calls ++ (attestationPool d rest a2).2)
    | ((a2, .returned _), calls) =>
      ((attestationPool d rest a2).1, calls ++ (attestationPool d rest a2).2)

/-! ## The batch update in the specification's words -/

/-- One item of the batch as the specification words it: `update_one` is invoked for it;
an item whose committee lookup fails changes nothing; whatever a call returns, the batch
goes on with the next item. After a call that does not return nothing more happens. -/
def batchUpdateSpecStep (d : Deps) (beaconState : BeaconState)
    (acc : Service × Outcome (Option Error)) (attestation : Attestation) :
    Service × Outcome (Option Error) :=
  match acc.2 with
  | .returned _ =>
    match d.CrosslinkCommittee beaconState (d.CurrentEpoch beaconState)
        attestation.Data.Crosslink.Shard with
    | .error _ => (acc.1, .returned none)
    | .ok _ =>
      match updateAttestation d acc.1 beaconState attestation with
      | (a2, .returned _) => (a2, .returned none)
      | (a2, .panicked) => (a2, .panicked)
      | (a2, .blocked) => (a2, .blocked)
  | .panicked => acc
  | .blocked => acc

/-- The batch update of the specification: the items in order, success once the vector is
exhausted. -/
def batchUpdateSpec (d : Deps) (beaconState : BeaconState) (atts : List Attestation)
    (a : Service) : Service × Outcome (Option Error) :=
  atts.foldl (batchUpdateSpecStep d beaconState) (a, .returned none)

/-! ## Fixtures: a four-validator registry on the minimal configuration -/

/-- Copy of a byte slice into an `n`-byte array: cut or filled with zeros. -/
def padTo (n : Nat) (x : Bytes) : Bytes := (x ++ List.replicate n 0).take n

/-- Eight slots an epoch and the allocator of amd64; shard 0 has the committee
`[0, 1, 2, 3]`, no other shard has one. -/
def sampleDeps : Deps where
  SlotsPerEpoch := 8
  MaxSliceCap := 2 ^ 45
  CurrentEpoch := fun s => s.Slot / 8
  CrosslinkCommittee := fun _ _ shard =>
    if shard = 0 then .ok [0, 1, 2, 3] else .error "no committee for the shard"
  ActiveValidatorCount := fun s _ => .ok s.Validators.length
  ToBytes48 := padTo 48
  ToBytes32 := padTo 32

/-- Four validators with the public keys 10, 11, 12 and 13. -/
def sampleState : BeaconState :=
  { Validators := [⟨[10]⟩, ⟨[11]⟩, ⟨[12]⟩, ⟨[13]⟩], Slot := 40 }

/-- The block root `R` of the fixtures. -/
def rootR : Bytes := padTo 32 [7]

/-- The parent root `P` of the fixtures. -/
def rootP : Bytes := padTo 32 [9]

/-- A block store that knows `R` only, with the target `(40, R, P)`. -/
def sampleDB : BeaconDB where
  HasBlock := fun r => decide (r = rootR)
  AttestationTarget := fun r => (some ⟨40, r, rootP⟩, none)
  HeadState := .ok sampleState

/-- A block store whose head state cannot be read. -/
def failingDB : BeaconDB where
  HasBlock := fun _ => false
  AttestationTarget := fun _ => (none, some "no such block")
  HeadState := .error "head state not found"

/-- As `sampleDeps`, with a committee whose only entry, `2 ^ 63`, is no registry index. -/
def hugeIndexDeps : Deps :=
  { sampleDeps with CrosslinkCommittee := fun _ _ _ => .ok [2 ^ 63] }

/-- As `sampleDeps`, with 64 active validators. -/
def count64Deps : Deps :=
  { sampleDeps with ActiveValidatorCount := fun _ _ => .ok 64 }

/-- As `sampleDeps`, with the largest `uint64` as the active validator count. -/
def maxCountDeps : Deps :=
  { sampleDeps with ActiveValidatorCount := fun _ _ => .ok (2 ^ 64 - 1) }

/-- As `sampleDeps`, with `2 ^ 52` active validators: seventy per cent of the `2 ^ 49` a
slot are more than the `2 ^ 45` pointers a slice can hold. -/
def largeCountDeps : Deps :=
  { sampleDeps with ActiveValidatorCount := fun _ _ => .ok (2 ^ 52) }

/-- As `sampleDeps`, with one slot an epoch and 2635249153387078803 active validators:
seven times the count is `2 ^ 64 + 5`. -/
def wrapCountDeps : Deps :=
  { sampleDeps with
    SlotsPerEpoch := 1
    ActiveValidatorCount := fun _ _ => .ok 2635249153387078803 }

/-- As `sampleDeps`, with the committee `[7, 1]`: 7 is no index of a four-validator
registry. -/
def strayIndexDeps : Deps :=
  { sampleDeps with CrosslinkCommittee := fun _ _ _ => .ok [7, 1] }

/-- As `sampleDeps`, with the committee `[1, 7, 2]`: the entry in the middle is no index of
a four-validator registry. -/
def strayMiddleDeps : Deps :=
  { sampleDeps with CrosslinkCommittee := fun _ _ _ => .ok [1, 7, 2] }

/-- An attestation for shard `shard` voting for `R` with the target epoch `epoch`. -/
def sampleAtt (bits : List Bool) (epoch : Nat) (shard : Nat) : Attestation :=
  { AggregationBits := bits
    Data := { BeaconBlockRoot := [7], Source := ⟨0, []⟩, Target := ⟨epoch, []⟩,
              Crosslink := ⟨shard⟩ } }

/-- The key of the validator whose public key is the byte `b`. -/
def sampleKey (b : Byte) : Bytes := padTo 48 [b]


/-! ## The lock -/

theorem RLock_of_no_writer (mu : RWMutex) (h : mu.writer = false) :
    mu.RLock = some { mu with readers := mu.readers + 1 } := by
  simp [RWMutex.RLock, h]

theorem RLock_of_writer (mu : RWMutex) (h : mu.writer = true) : mu.RLock = none := by
  simp [RWMutex.RLock, h]

theorem RUnlock_after_RLock (mu : RWMutex) :
    RWMutex.RUnlock { mu with readers := mu.readers + 1 } = some mu := by
  simp [RWMutex.RUnlock]

/-! ## The fork-choice adapter -/

theorem LatestAttestationTarget_out_of_range (d : Deps) (db : BeaconDB) (a : Service)
    (beaconState : BeaconState) (index : Nat) (h : beaconState.Validators.length ≤ index) :
    LatestAttestationTarget d db a beaconState index
      = (a, .returned (none, some (.invalidValidatorIndex index))) := by
  unfold LatestAttestationTarget
  rw [dif_pos h]

theorem LatestAttestationTarget_writer_held (d : Deps) (db : BeaconDB) (a : Service)
    (beaconState : BeaconState) (index : Nat) (h : index < beaconState.Validators.length)
    (hw : a.store.mu.writer = true) :
    LatestAttestationTarget d db a beaconState index = (a, .blocked) := by
  unfold LatestAttestationTarget
  rw [dif_neg (Nat.not_le.mpr h)]
  simp only [RLock_of_writer _ hw]

theorem LatestAttestationTarget_in_range (d : Deps) (db : BeaconDB) (a : Service)
    (beaconState : BeaconState) (index : Nat) (h : index < beaconState.Validators.length)
    (hw : a.store.mu.writer = false) :
    LatestAttestationTarget d db a beaconState index
      = (a, .returned (lookupTarget d db a (d.ToBytes48 beaconState.Validators[index].PublicKey))) := by
  unfold LatestAttestationTarget
  rw [dif_neg (Nat.not_le.mpr h)]
  simp only [RLock_of_no_writer _ hw, RUnlock_after_RLock]
  rfl

theorem LatestAttestationTarget_recorded (d : Deps) (db : BeaconDB) (a : Service)
    (beaconState : BeaconState) (index : Nat) (att : Attestation)
    (h : index < beaconState.Validators.length) (hw : a.store.mu.writer = false)
    (hrec : a.store.m (d.ToBytes48 beaconState.Validators[index].PublicKey) = some (some att))
    (hhas : db.HasBlock (d.ToBytes32 att.Data.BeaconBlockRoot) = true) :
    LatestAttestationTarget d db a beaconState index
      = (a, .returned ((db.AttestationTarget (d.ToBytes32 att.Data.BeaconBlockRoot)).1,
          (db.AttestationTarget (d.ToBytes32 att.Data.BeaconBlockRoot)).2.map
            Error.collaborator)) := by
  rw [LatestAttestationTarget_in_range d db a beaconState index h hw]
  simp [lookupTarget, hrec, hhas]


/-! ## Machine integers -/

theorem toInt_le (x : Nat) : toInt x ≤ (x : Int) := by
  unfold toInt
  have h := Nat.mod_le x (2 ^ 64)
  split <;> omega

theorem toInt_of_lt (x : Nat) (h : x < 2 ^ 63) : toInt x = (x : Int) := by
  unfold toInt
  have h1 : x % 2 ^ 64 = x := Nat.mod_eq_of_lt (by omega)
  rw [h1, if_pos h]

/-! ## Leaving `updateAttestation` -/

theorem leave_zero (a : Service) (r : Outcome (Option Error)) : leave 0 a r = (a, r) := rfl

theorem runDeferred_frame : ∀ (n : Nat) (a a2 : Service), runDeferred n a = some a2 →
    a2.store.m = a.store.m ∧ a2.pooledAttestations = a.pooledAttestations
      ∧ a2.poolLimit = a.poolLimit
  | 0, a, a2, h => by
    simp only [runDeferred, Option.some.injEq] at h
    subst h
    exact ⟨rfl, rfl, rfl⟩
  | n + 1, a, a2, h => by
    simp only [runDeferred] at h
    split at h
    · exact absurd h (by simp)
    · have h3 := runDeferred_frame n _ a2 h
      exact h3

theorem leave_frame (defers : Nat) (a : Service) (r : Outcome (Option Error)) :
    (leave defers a r).1.store.m = a.store.m
      ∧ (leave defers a r).1.pooledAttestations = a.pooledAttestations
      ∧ (leave defers a r).1.poolLimit = a.poolLimit := by
  unfold leave
  split
  · next a2 h => exact runDeferred_frame defers a a2 h
  · exact ⟨rfl, rfl, rfl⟩

theorem leave_outcome (defers : Nat) (a : Service) (r : Outcome (Option Error)) :
    (leave defers a r).2 = r ∨ (leave defers a r).2 = .panicked := by
  unfold leave
  split
  · exact Or.inl rfl
  · exact Or.inr rfl

/-- One deferred unlock on a store whose writer holds the lock gives the lock back. -/
theorem leave_one (a : Service) (r : Outcome (Option Error)) (h : a.store.mu.writer = true) :
    leave 1 a r
      = ({ a with store := { a.store with mu := { a.store.mu with writer := false } } }, r) := by
  simp [leave, runDeferred, RWMutex.Unlock, h]


/-! ## The merge of one entry -/

theorem mergeEntry_of_present (d : Deps) (m : Bytes → Option (Option Attestation))
    (pubkey : Bytes) (attestation : Attestation) (h : m pubkey ≠ none) :
    mergeEntry d m pubkey attestation = m := by
  have hs : (m pubkey).isSome = true := Option.isSome_iff_ne_none.mpr h
  simp [mergeEntry, hs]

theorem mergeEntry_of_absent (d : Deps) (m : Bytes → Option (Option Attestation))
    (pubkey : Bytes) (attestation : Attestation) (h : m pubkey = none)
    (hslot : (attestation.Data.Target.Epoch * d.SlotsPerEpoch) % 2 ^ 64 ≠ 0) :
    mergeEntry d m pubkey attestation = mapSet m pubkey (some attestation) := by
  simp only [mergeEntry, h, Option.isSome_none, Bool.false_eq_true, if_false]
  rw [if_pos (by omega)]

theorem mergeEntry_of_slot_zero (d : Deps) (m : Bytes → Option (Option Attestation))
    (pubkey : Bytes) (attestation : Attestation)
    (hslot : (attestation.Data.Target.Epoch * d.SlotsPerEpoch) % 2 ^ 64 = 0) :
    mergeEntry d m pubkey attestation = m := by
  unfold mergeEntry
  dsimp only
  rw [hslot]
  simp

theorem mergeEntry_keeps_present (d : Deps) (m : Bytes → Option (Option Attestation))
    (pubkey : Bytes) (attestation : Attestation) (k : Bytes) (h : m k ≠ none) :
    mergeEntry d m pubkey attestation k = m k := by
  by_cases hk : m pubkey = none
  · have hne : k ≠ pubkey := fun e => h (e ▸ hk)
    by_cases hz : (attestation.Data.Target.Epoch * d.SlotsPerEpoch) % 2 ^ 64 = 0
    · rw [mergeEntry_of_slot_zero d m pubkey attestation hz]
    · rw [mergeEntry_of_absent d m pubkey attestation hk hz]
      simp [mapSet, hne]
  · rw [mergeEntry_of_present d m pubkey attestation hk]

/-! ## The loop of `updateAttestation` -/

theorem updateLoop_clear (d : Deps) (beaconState : BeaconState) (attestation : Attestation)
    (committee : List Nat) (n i defers : Nat) (a : Service)
    (h : attestation.AggregationBits.BitAt i = false) :
    updateLoop d beaconState attestation committee (n + 1) i defers a
      = updateLoop d beaconState attestation committee n (i + 1) defers a := by
  conv => lhs; unfold updateLoop
  simp [h]

theorem updateLoop_skip (d : Deps) (beaconState : BeaconState) (attestation : Attestation)
    (committee : List Nat) : ∀ (k n i defers : Nat) (a : Service),
    (∀ j, i ≤ j → j < i + k → attestation.AggregationBits.BitAt j = false) →
    updateLoop d beaconState attestation committee (k + n) i defers a
      = updateLoop d beaconState attestation committee n (i + k) defers a
  | 0, n, i, defers, a, _ => by simp
  | k + 1, n, i, defers, a, h => by
    have h0 : attestation.AggregationBits.BitAt i = false := h i (Nat.le_refl i) (by omega)
    have e : k + 1 + n = (k + n) + 1 := by omega
    rw [e, updateLoop_clear d beaconState attestation committee (k + n) i defers a h0,
      updateLoop_skip d beaconState attestation committee k n (i + 1) defers a
        (fun j h1 h2 => h j (by omega) (by omega))]
    congr 1
    omega

theorem updateLoop_all_clear (d : Deps) (beaconState : BeaconState) (attestation : Attestation)
    (committee : List Nat) (n i defers : Nat) (a : Service)
    (h : ∀ j, i ≤ j → j < i + n → attestation.AggregationBits.BitAt j = false) :
    updateLoop d beaconState attestation committee n i defers a
      = leave defers a (.returned none) := by
  have e := updateLoop_skip d beaconState attestation committee n 0 i defers a h
  simp only [Nat.add_zero] at e
  rw [e]
  rfl

theorem updateLoop_malformed (d : Deps) (beaconState : BeaconState) (attestation : Attestation)
    (committee : List Nat) (n i defers : Nat) (a : Service)
    (hbit : attestation.AggregationBits.BitAt i = true)
    (hbad : committee.length ≤ i ∨
      ∃ c, committee[i]? = some c ∧ (beaconState.Validators.length : Int) ≤ toInt c) :
    updateLoop d beaconState attestation committee (n + 1) i defers a
      = leave defers a (.returned none) := by
  conv => lhs; unfold updateLoop
  simp only [hbit, Bool.not_true, Bool.false_eq_true, if_false]
  rcases hbad with hlen | ⟨c, hc, hge⟩
  · rw [dif_pos hlen]
  · by_cases hlen : committee.length ≤ i
    · rw [dif_pos hlen]
    · rw [dif_neg hlen]
      have hlt : i < committee.length := Nat.lt_of_not_ge hlen
      have hci : committee[i] = c := by
        rw [List.getElem?_eq_getElem hlt] at hc
        exact Option.some.inj hc
      simp only [hci, ge_iff_le, hge, if_true]

theorem updateLoop_valid (d : Deps) (beaconState : BeaconState) (attestation : Attestation)
    (committee : List Nat) (n i defers : Nat) (a : Service)
    (hbit : attestation.AggregationBits.BitAt i = true)
    (hi : i < committee.length) (hv : committee[i] < beaconState.Validators.length)
    (hfree : a.store.mu = { writer := false, readers := 0 }) :
    updateLoop d beaconState attestation committee (n + 1) i defers a
      = updateLoop d beaconState attestation committee n (i + 1) (defers + 1)
          { a with store :=
              { mu := { writer := true, readers := 0 }
                m := mergeEntry d a.store.m
                  (d.ToBytes48 beaconState.Validators[committee[i]].PublicKey) attestation } } := by
  conv => lhs; unfold updateLoop
  simp only [hbit, Bool.not_true, Bool.false_eq_true, if_false]
  rw [dif_neg (Nat.not_le.mpr hi)]
  have hnot : ¬ (toInt committee[i] ≥ (beaconState.Validators.length : Int)) := by
    have := toInt_le committee[i]
    omega
  simp only [hnot, if_false, List.getElem?_eq_getElem hv, hfree, RWMutex.Lock]
  rfl


/-- A set bit that passes both checks: the registry is indexed and the lock requested. -/
theorem updateLoop_reached (d : Deps) (beaconState : BeaconState) (attestation : Attestation)
    (committee : List Nat) (n i defers : Nat) (a : Service)
    (hbit : attestation.AggregationBits.BitAt i = true)
    (hi : i < committee.length)
    (hnot : ¬ (beaconState.Validators.length : Int) ≤ toInt committee[i]) :
    updateLoop d beaconState attestation committee (n + 1) i defers a
      = match beaconState.Validators[committee[i]]? with
        | none => leave defers a .panicked
        | some validator =>
          match a.store.mu.Lock with
          | none => (a, .blocked)
          | some mu =>
            updateLoop d beaconState attestation committee n (i + 1) (defers + 1)
              { a with store :=
                  { mu := mu
                    m := mergeEntry d a.store.m (d.ToBytes48 validator.PublicKey)
                      attestation } } := by
  conv => lhs; unfold updateLoop
  simp only [hbit, Bool.not_true, Bool.false_eq_true, if_false]
  rw [dif_neg (Nat.not_le.mpr hi)]
  simp only [ge_iff_le, hnot, if_false]

/-- The five ways one iteration of the loop can go. -/
theorem updateLoop_step_cases (d : Deps) (beaconState : BeaconState) (attestation : Attestation)
    (committee : List Nat) (n i defers : Nat) (a : Service) :
    updateLoop d beaconState attestation committee (n + 1) i defers a
        = updateLoop d beaconState attestation committee n (i + 1) defers a
    ∨ updateLoop d beaconState attestation committee (n + 1) i defers a
        = leave defers a (.returned none)
    ∨ updateLoop d beaconState attestation committee (n + 1) i defers a
        = leave defers a .panicked
    ∨ (a.store.mu.Lock = none
        ∧ updateLoop d beaconState attestation committee (n + 1) i defers a = (a, .blocked))
    ∨ ∃ mu pubkey, a.store.mu.Lock = some mu
        ∧ updateLoop d beaconState attestation committee (n + 1) i defers a
          = updateLoop d beaconState attestation committee n (i + 1) (defers + 1)
              { a with store := { mu := mu, m := mergeEntry d a.store.m pubkey attestation } } := by
  by_cases hbit : attestation.AggregationBits.BitAt i = true
  · by_cases hlen : committee.length ≤ i
    · exact Or.inr (Or.inl (updateLoop_malformed d beaconState attestation committee n i defers a
        hbit (Or.inl hlen)))
    · have hi : i < committee.length := Nat.lt_of_not_ge hlen
      by_cases hge : (beaconState.Validators.length : Int) ≤ toInt committee[i]
      · exact Or.inr (Or.inl (updateLoop_malformed d beaconState attestation committee n i
          defers a hbit (Or.inr ⟨committee[i], List.getElem?_eq_getElem hi, hge⟩)))
      · have e := updateLoop_reached d beaconState attestation committee n i defers a hbit hi hge
        cases hv : beaconState.Validators[committee[i]]? with
        | none =>
          rw [hv] at e
          exact Or.inr (Or.inr (Or.inl e))
        | some validator =>
          rw [hv] at e
          cases hl : a.store.mu.Lock with
          | none =>
            rw [hl] at e
            exact Or.inr (Or.inr (Or.inr (Or.inl ⟨rfl, e⟩)))
          | some mu =>
            rw [hl] at e
            exact Or.inr (Or.inr (Or.inr (Or.inr
              ⟨mu, d.ToBytes48 validator.PublicKey, rfl, e⟩)))
  · have hb : attestation.AggregationBits.BitAt i = false := by
      cases h : attestation.AggregationBits.BitAt i
      · rfl
      · exact absurd h hbit
    exact Or.inl (updateLoop_clear d beaconState attestation committee n i defers a hb)


/-! ## Bit lists -/

theorem BitAt_lt_Len (b : Bitlist) (i : Nat) (h : b.BitAt i = true) : i < b.Len := by
  unfold Bitlist.BitAt at h
  unfold Bitlist.Len
  by_contra hge
  rw [List.getD_eq_default _ _ (Nat.le_of_not_lt hge)] at h
  exact absurd h (by decide)

theorem count_pos_of_BitAt : ∀ (b : Bitlist) (i : Nat), b.BitAt i = true → 0 < List.count true b
  | [], i, h => by simp [Bitlist.BitAt] at h
  | x :: xs, 0, h => by
    have hx : x = true := by simpa [Bitlist.BitAt] using h
    simp [hx]
  | x :: xs, i + 1, h => by
    have hx : Bitlist.BitAt xs i = true := by simpa [Bitlist.BitAt] using h
    have := count_pos_of_BitAt xs i hx
    rw [List.count_cons]
    omega

/-- With at most one set bit, two set positions are the same position. -/
theorem BitAt_unique : ∀ (b : Bitlist), List.count true b ≤ 1 → ∀ i j : Nat,
    b.BitAt i = true → b.BitAt j = true → i = j
  | [], _, i, _, h, _ => by simp [Bitlist.BitAt] at h
  | x :: xs, hc, 0, 0, _, _ => rfl
  | x :: xs, hc, 0, j + 1, hi, hj => by
    have hx : x = true := by simpa [Bitlist.BitAt] using hi
    have hj2 : Bitlist.BitAt xs j = true := by simpa [Bitlist.BitAt] using hj
    have := count_pos_of_BitAt xs j hj2
    rw [List.count_cons, hx] at hc
    simp at hc
    omega
  | x :: xs, hc, i + 1, 0, hi, hj => by
    have hx : x = true := by simpa [Bitlist.BitAt] using hj
    have hi2 : Bitlist.BitAt xs i = true := by simpa [Bitlist.BitAt] using hi
    have := count_pos_of_BitAt xs i hi2
    rw [List.count_cons, hx] at hc
    simp at hc
    omega
  | x :: xs, hc, i + 1, j + 1, hi, hj => by
    have hi2 : Bitlist.BitAt xs i = true := by simpa [Bitlist.BitAt] using hi
    have hj2 : Bitlist.BitAt xs j = true := by simpa [Bitlist.BitAt] using hj
    have hc2 : List.count true xs ≤ 1 := by
      rw [List.count_cons] at hc
      omega
    rw [BitAt_unique xs hc2 i j hi2 hj2]

theorem BitAt_other_clear (b : Bitlist) (hc : List.count true b ≤ 1) (i j : Nat)
    (hi : b.BitAt i = true) (hne : j ≠ i) : b.BitAt j = false := by
  cases h : b.BitAt j
  · rfl
  · exact absurd (BitAt_unique b hc j i h hi) hne


/-! ## What a whole run of the loop does -/

/-- The loop touches neither the pending attestations nor the pool limit. -/
theorem updateLoop_frame (d : Deps) (beaconState : BeaconState) (attestation : Attestation)
    (committee : List Nat) : ∀ (n i defers : Nat) (a : Service),
    (updateLoop d beaconState attestation committee n i defers a).1.pooledAttestations
        = a.pooledAttestations
      ∧ (updateLoop d beaconState attestation committee n i defers a).1.poolLimit = a.poolLimit
  | 0, i, defers, a => by
    have h := leave_frame defers a (.returned none)
    exact ⟨h.2.1, h.2.2⟩
  | n + 1, i, defers, a => by
    rcases updateLoop_step_cases d beaconState attestation committee n i defers a with
      e | e | e | ⟨_, e⟩ | ⟨mu, pubkey, _, e⟩
    · rw [e]
      exact updateLoop_frame d beaconState attestation committee n (i + 1) defers a
    · rw [e]
      have h := leave_frame defers a (.returned none)
      exact ⟨h.2.1, h.2.2⟩
    · rw [e]
      have h := leave_frame defers a .panicked
      exact ⟨h.2.1, h.2.2⟩
    · rw [e]
      exact ⟨rfl, rfl⟩
    · rw [e]
      exact updateLoop_frame d beaconState attestation committee n (i + 1) (defers + 1) _

/-- The loop never writes a key that already has an entry. -/
theorem updateLoop_keeps_present (d : Deps) (beaconState : BeaconState)
    (attestation : Attestation) (committee : List Nat) (k : Bytes) :
    ∀ (n i defers : Nat) (a : Service), a.store.m k ≠ none →
    (updateLoop d beaconState attestation committee n i defers a).1.store.m k = a.store.m k
  | 0, i, defers, a, _ => by
    have h := leave_frame defers a (.returned none)
    show (leave defers a (.returned none)).1.store.m k = a.store.m k
    rw [h.1]
  | n + 1, i, defers, a, hk => by
    rcases updateLoop_step_cases d beaconState attestation committee n i defers a with
      e | e | e | ⟨_, e⟩ | ⟨mu, pubkey, _, e⟩
    · rw [e]
      exact updateLoop_keeps_present d beaconState attestation committee k n (i + 1) defers a hk
    · rw [e, (leave_frame defers a (.returned none)).1]
    · rw [e, (leave_frame defers a .panicked).1]
    · rw [e]
    · rw [e]
      have hm : mergeEntry d a.store.m pubkey attestation k = a.store.m k :=
        mergeEntry_keeps_present d a.store.m pubkey attestation k hk
      have h2 := updateLoop_keeps_present d beaconState attestation committee k n (i + 1)
        (defers + 1)
        { a with store := { mu := mu, m := mergeEntry d a.store.m pubkey attestation } }
        (by show mergeEntry d a.store.m pubkey attestation k ≠ none; rw [hm]; exact hk)
      rw [h2]
      exact hm

/-- The loop returns no error: it returns nil, panics, or waits for the lock. -/
theorem updateLoop_outcome (d : Deps) (beaconState : BeaconState) (attestation : Attestation)
    (committee : List Nat) : ∀ (n i defers : Nat) (a : Service),
    (updateLoop d beaconState attestation committee n i defers a).2 = .returned none
      ∨ (updateLoop d beaconState attestation committee n i defers a).2 = .panicked
      ∨ (updateLoop d beaconState attestation committee n i defers a).2 = .blocked
  | 0, i, defers, a => by
    rcases leave_outcome defers a (.returned none) with h | h
    · exact Or.inl h
    · exact Or.inr (Or.inl h)
  | n + 1, i, defers, a => by
    rcases updateLoop_step_cases d beaconState attestation committee n i defers a with
      e | e | e | ⟨_, e⟩ | ⟨mu, pubkey, _, e⟩
    · rw [e]
      exact updateLoop_outcome d beaconState attestation committee n (i + 1) defers a
    · rw [e]
      rcases leave_outcome defers a (.returned none) with h | h
      · exact Or.inl h
      · exact Or.inr (Or.inl h)
    · rw [e]
      rcases leave_outcome defers a .panicked with h | h
      · exact Or.inr (Or.inl h)
      · exact Or.inr (Or.inl h)
    · rw [e]
      exact Or.inr (Or.inr rfl)
    · rw [e]
      exact updateLoop_outcome d beaconState attestation committee n (i + 1) (defers + 1) _

/-- An attestation whose only set bit is a valid one: the lock is taken once, the entry is
merged, and the call returns nil with the lock given back. -/
theorem updateLoop_one_bit (d : Deps) (beaconState : BeaconState) (attestation : Attestation)
    (committee : List Nat) (a : Service) (i : Nat)
    (hone : List.count true attestation.AggregationBits ≤ 1)
    (hbit : attestation.AggregationBits.BitAt i = true)
    (hi : i < committee.length) (hv : committee[i] < beaconState.Validators.length)
    (hfree : a.store.mu = { writer := false, readers := 0 }) :
    updateLoop d beaconState attestation committee attestation.AggregationBits.Len 0 0 a
      = ({ a with store :=
            { mu := { writer := false, readers := 0 }
              m := mergeEntry d a.store.m
                (d.ToBytes48 beaconState.Validators[committee[i]].PublicKey) attestation } },
         .returned none) := by
  have hlen := BitAt_lt_Len _ i hbit
  obtain ⟨r, hr⟩ : ∃ r, attestation.AggregationBits.Len = i + (r + 1) :=
    ⟨attestation.AggregationBits.Len - i - 1, by omega⟩
  have hclear : ∀ j, j ≠ i → attestation.AggregationBits.BitAt j = false :=
    fun j hj => BitAt_other_clear _ hone i j hbit hj
  rw [hr, updateLoop_skip d beaconState attestation committee i (r + 1) 0 0 a
    (fun j _ h2 => hclear j (by omega))]
  simp only [Nat.zero_add]
  rw [updateLoop_valid d beaconState attestation committee r i 0 a hbit hi hv hfree,
    updateLoop_all_clear d beaconState attestation committee r (i + 1) (0 + 1) _
      (fun j h1 _ => hclear j (by omega))]
  rw [leave_one _ _ rfl]


/-- With at most one set bit and committee entries that fit an `int`, the loop returns nil
and hands the lock back. -/
theorem updateLoop_returns (d : Deps) (beaconState : BeaconState) (attestation : Attestation)
    (committee : List Nat) (a : Service)
    (hone : List.count true attestation.AggregationBits ≤ 1)
    (hsmall : ∀ c ∈ committee, c < 2 ^ 63)
    (hfree : a.store.mu = { writer := false, readers := 0 }) :
    (updateLoop d beaconState attestation committee attestation.AggregationBits.Len 0 0 a).2
        = .returned none
      ∧ (updateLoop d beaconState attestation committee attestation.AggregationBits.Len 0 0
          a).1.store.mu = { writer := false, readers := 0 } := by
  by_cases hex : ∃ i, attestation.AggregationBits.BitAt i = true
  · obtain ⟨i, hbit⟩ := hex
    by_cases hvalid : ∃ hi : i < committee.length, committee[i] < beaconState.Validators.length
    · obtain ⟨hi, hv⟩ := hvalid
      rw [updateLoop_one_bit d beaconState attestation committee a i hone hbit hi hv hfree]
      exact ⟨rfl, rfl⟩
    · have hbad : committee.length ≤ i ∨
          ∃ c, committee[i]? = some c ∧ (beaconState.Validators.length : Int) ≤ toInt c := by
        by_cases hi : i < committee.length
        · right
          refine ⟨committee[i], List.getElem?_eq_getElem hi, ?_⟩
          have hc : committee[i] < 2 ^ 63 := hsmall _ (List.getElem_mem hi)
          have hge : beaconState.Validators.length ≤ committee[i] :=
            Nat.le_of_not_lt (fun h => hvalid ⟨hi, h⟩)
          rw [toInt_of_lt _ hc]
          exact_mod_cast hge
        · exact Or.inl (Nat.le_of_not_lt hi)
      have hlen := BitAt_lt_Len _ i hbit
      obtain ⟨r, hr⟩ : ∃ r, attestation.AggregationBits.Len = i + (r + 1) :=
        ⟨attestation.AggregationBits.Len - i - 1, by omega⟩
      rw [hr, updateLoop_skip d beaconState attestation committee i (r + 1) 0 0 a
        (fun j _ h2 => BitAt_other_clear _ hone i j hbit (by omega))]
      simp only [Nat.zero_add]
      rw [updateLoop_malformed d beaconState attestation committee r i 0 a hbit hbad, leave_zero]
      exact ⟨rfl, hfree⟩
  · have hclear : ∀ j, attestation.AggregationBits.BitAt j = false := by
      intro j
      cases h : attestation.AggregationBits.BitAt j
      · rfl
      · exact absurd ⟨j, h⟩ hex
    rw [updateLoop_all_clear d beaconState attestation committee _ 0 0 a
      (fun j _ _ => hclear j), leave_zero]
    exact ⟨rfl, hfree⟩

/-! ## `updateAttestation` -/

theorem updateAttestation_committee_error (d : Deps) (a : Service) (beaconState : BeaconState)
    (attestation : Attestation) (err : String)
    (h : d.CrosslinkCommittee beaconState (d.CurrentEpoch beaconState)
      attestation.Data.Crosslink.Shard = .error err) :
    updateAttestation d a beaconState attestation = (a, .returned (some (.collaborator err))) := by
  unfold updateAttestation
  rw [h]

theorem updateAttestation_committee_ok (d : Deps) (a : Service) (beaconState : BeaconState)
    (attestation : Attestation) (committee : List Nat)
    (h : d.CrosslinkCommittee beaconState (d.CurrentEpoch beaconState)
      attestation.Data.Crosslink.Shard = .ok committee) :
    updateAttestation d a beaconState attestation
      = updateLoop d beaconState attestation committee attestation.AggregationBits.Len 0 0 a := by
  unfold updateAttestation
  rw [h]

theorem updateAttestation_keeps_present (d : Deps) (a : Service) (beaconState : BeaconState)
    (attestation : Attestation) (k : Bytes) (hk : a.store.m k ≠ none) :
    (updateAttestation d a beaconState attestation).1.store.m k = a.store.m k := by
  cases h : d.CrosslinkCommittee beaconState (d.CurrentEpoch beaconState)
      attestation.Data.Crosslink.Shard with
  | error err => rw [updateAttestation_committee_error d a beaconState attestation err h]
  | ok committee =>
    rw [updateAttestation_committee_ok d a beaconState attestation committee h]
    exact updateLoop_keeps_present d beaconState attestation committee k _ 0 0 a hk

theorem updateAttestation_frame (d : Deps) (a : Service) (beaconState : BeaconState)
    (attestation : Attestation) :
    (updateAttestation d a beaconState attestation).1.pooledAttestations = a.pooledAttestations
      ∧ (updateAttestation d a beaconState attestation).1.poolLimit = a.poolLimit := by
  cases h : d.CrosslinkCommittee beaconState (d.CurrentEpoch beaconState)
      attestation.Data.Crosslink.Shard with
  | error err =>
    rw [updateAttestation_committee_error d a beaconState attestation err h]
    exact ⟨rfl, rfl⟩
  | ok committee =>
    rw [updateAttestation_committee_ok d a beaconState attestation committee h]
    exact updateLoop_frame d beaconState attestation committee _ 0 0 a

/-! ## The batch loop -/

theorem batchLoop_cons_returned (d : Deps) (beaconState : BeaconState)
    (attestation : Attestation) (rest : List Attestation) (a a2 : Service) (r : Option Error)
    (h : updateAttestation d a beaconState attestation = (a2, .returned r)) :
    batchLoop d beaconState (attestation :: rest) a = batchLoop d beaconState rest a2 := by
  conv => lhs; unfold batchLoop
  rw [h]

theorem batchLoop_cons_panicked (d : Deps) (beaconState : BeaconState)
    (attestation : Attestation) (rest : List Attestation) (a a2 : Service)
    (h : updateAttestation d a beaconState attestation = (a2, .panicked)) :
    batchLoop d beaconState (attestation :: rest) a = (a2, .panicked) := by
  conv => lhs; unfold batchLoop
  rw [h]

theorem batchLoop_cons_blocked (d : Deps) (beaconState : BeaconState)
    (attestation : Attestation) (rest : List Attestation) (a a2 : Service)
    (h : updateAttestation d a beaconState attestation = (a2, .blocked)) :
    batchLoop d beaconState (attestation :: rest) a = (a2, .blocked) := by
  conv => lhs; unfold batchLoop
  rw [h]

/-- An item whose committee lookup fails is stepped over. -/
theorem batchLoop_cons_committee_error (d : Deps) (beaconState : BeaconState)
    (attestation : Attestation) (rest : List Attestation) (a : Service) (err : String)
    (h : d.CrosslinkCommittee beaconState (d.CurrentEpoch beaconState)
      attestation.Data.Crosslink.Shard = .error err) :
    batchLoop d beaconState (attestation :: rest) a = batchLoop d beaconState rest a :=
  batchLoop_cons_returned d beaconState attestation rest a a _
    (updateAttestation_committee_error d a beaconState attestation err h)

theorem batchLoop_keeps_present (d : Deps) (beaconState : BeaconState) (k : Bytes) :
    ∀ (atts : List Attestation) (a : Service), a.store.m k ≠ none →
    (batchLoop d beaconState atts a).1.store.m k = a.store.m k
  | [], a, _ => rfl
  | attestation :: rest, a, hk => by
    have h1 := updateAttestation_keeps_present d a beaconState attestation k hk
    rcases hu : updateAttestation d a beaconState attestation with ⟨a2, o⟩
    rw [hu] at h1
    cases o with
    | returned r =>
      rw [batchLoop_cons_returned d beaconState attestation rest a a2 r hu,
        batchLoop_keeps_present d beaconState k rest a2 (by rw [h1]; exact hk)]
      exact h1
    | panicked =>
      rw [batchLoop_cons_panicked d beaconState attestation rest a a2 hu]
      exact h1
    | blocked =>
      rw [batchLoop_cons_blocked d beaconState attestation rest a a2 hu]
      exact h1


theorem batchLoop_returns (d : Deps) (beaconState : BeaconState) :
    ∀ (atts : List Attestation) (a : Service),
    a.store.mu = { writer := false, readers := 0 } →
    (∀ att ∈ atts, List.count true att.AggregationBits ≤ 1) →
    (∀ att ∈ atts, ∀ committee, d.CrosslinkCommittee beaconState (d.CurrentEpoch beaconState)
      att.Data.Crosslink.Shard = .ok committee → ∀ c ∈ committee, c < 2 ^ 63) →
    (batchLoop d beaconState atts a).2 = .returned none
      ∧ (batchLoop d beaconState atts a).1.store.mu = { writer := false, readers := 0 }
  | [], a, hfree, _, _ => ⟨rfl, hfree⟩
  | attestation :: rest, a, hfree, hone, hsmall => by
    have hone2 : ∀ att ∈ rest, List.count true att.AggregationBits ≤ 1 :=
      fun att h => hone att (List.mem_cons_of_mem _ h)
    have hsmall2 : ∀ att ∈ rest, ∀ committee,
        d.CrosslinkCommittee beaconState (d.CurrentEpoch beaconState)
          att.Data.Crosslink.Shard = .ok committee → ∀ c ∈ committee, c < 2 ^ 63 :=
      fun att h => hsmall att (List.mem_cons_of_mem _ h)
    cases hc : d.CrosslinkCommittee beaconState (d.CurrentEpoch beaconState)
        attestation.Data.Crosslink.Shard with
    | error err =>
      rw [batchLoop_cons_committee_error d beaconState attestation rest a err hc]
      exact batchLoop_returns d beaconState rest a hfree hone2 hsmall2
    | ok committee =>
      have hu := updateAttestation_committee_ok d a beaconState attestation committee hc
      have hr := updateLoop_returns d beaconState attestation committee a
        (hone attestation (List.mem_cons_self _ _))
        (hsmall attestation (List.mem_cons_self _ _) committee hc) hfree
      rw [← hu] at hr
      rcases hv : updateAttestation d a beaconState attestation with ⟨a2, o⟩
      rw [hv] at hr
      have ho : o = .returned none := hr.1
      subst ho
      rw [batchLoop_cons_returned d beaconState attestation rest a a2 none hv]
      exact batchLoop_returns d beaconState rest a2 hr.2 hone2 hsmall2

/-- The batch loop returns no error. -/
theorem batchLoop_outcome (d : Deps) (beaconState : BeaconState) :
    ∀ (atts : List Attestation) (a : Service) (err : Error),
    (batchLoop d beaconState atts a).2 ≠ .returned (some err)
  | [], a, err => by simp [batchLoop]
  | attestation :: rest, a, err => by
    rcases hv : updateAttestation d a beaconState attestation with ⟨a2, o⟩
    cases o with
    | returned r =>
      rw [batchLoop_cons_returned d beaconState attestation rest a a2 r hv]
      exact batchLoop_outcome d beaconState rest a2 err
    | panicked =>
      rw [batchLoop_cons_panicked d beaconState attestation rest a a2 hv]
      simp
    | blocked =>
      rw [batchLoop_cons_blocked d beaconState attestation rest a a2 hv]
      simp

/-- An item whose committee lookup fails can be dropped from the vector. -/
theorem batchLoop_drop_committee_error (d : Deps) (beaconState : BeaconState)
    (bad : Attestation) (post : List Attestation) (err : String)
    (h : d.CrosslinkCommittee beaconState (d.CurrentEpoch beaconState)
      bad.Data.Crosslink.Shard = .error err) :
    ∀ (pre : List Attestation) (a : Service),
    batchLoop d beaconState (pre ++ bad :: post) a = batchLoop d beaconState (pre ++ post) a
  | [], a => by
    simp only [List.nil_append]
    exact batchLoop_cons_committee_error d beaconState bad post a err h
  | attestation :: pre, a => by
    simp only [List.cons_append]
    rcases hv : updateAttestation d a beaconState attestation with ⟨a2, o⟩
    cases o with
    | returned r =>
      rw [batchLoop_cons_returned d beaconState attestation _ a a2 r hv,
        batchLoop_cons_returned d beaconState attestation _ a a2 r hv]
      exact batchLoop_drop_committee_error d beaconState bad post err h pre a2
    | panicked =>
      rw [batchLoop_cons_panicked d beaconState attestation _ a a2 hv,
        batchLoop_cons_panicked d beaconState attestation _ a a2 hv]
    | blocked =>
      rw [batchLoop_cons_blocked d beaconState attestation _ a a2 hv,
        batchLoop_cons_blocked d beaconState attestation _ a a2 hv]

theorem batchUpdateSpecStep_fold_panicked (d : Deps) (beaconState : BeaconState) :
    ∀ (atts : List Attestation) (a : Service),
    atts.foldl (batchUpdateSpecStep d beaconState) (a, .panicked) = (a, .panicked)
  | [], a => rfl
  | attestation :: rest, a => by
    rw [List.foldl_cons]
    exact batchUpdateSpecStep_fold_panicked d beaconState rest a

theorem batchUpdateSpecStep_fold_blocked (d : Deps) (beaconState : BeaconState) :
    ∀ (atts : List Attestation) (a : Service),
    atts.foldl (batchUpdateSpecStep d beaconState) (a, .blocked) = (a, .blocked)
  | [], a => rfl
  | attestation :: rest, a => by
    rw [List.foldl_cons]
    exact batchUpdateSpecStep_fold_blocked d beaconState rest a

/-- The loop of the code and the fold of the specification are the same function. -/
theorem batchLoop_eq_spec (d : Deps) (beaconState : BeaconState) :
    ∀ (atts : List Attestation) (a : Service),
    batchLoop d beaconState atts a = batchUpdateSpec d beaconState atts a
  | [], a => rfl
  | attestation :: rest, a => by
    unfold batchUpdateSpec
    rw [List.foldl_cons]
    cases hc : d.CrosslinkCommittee beaconState (d.CurrentEpoch beaconState)
        attestation.Data.Crosslink.Shard with
    | error err =>
      rw [batchLoop_cons_committee_error d beaconState attestation rest a err hc]
      have hstep : batchUpdateSpecStep d beaconState (a, .returned none) attestation
          = (a, .returned none) := by
        simp only [batchUpdateSpecStep, hc]
      rw [hstep]
      exact batchLoop_eq_spec d beaconState rest a
    | ok committee =>
      rcases hv : updateAttestation d a beaconState attestation with ⟨a2, o⟩
      cases o with
      | returned r =>
        have hstep : batchUpdateSpecStep d beaconState (a, .returned none) attestation
            = (a2, .returned none) := by
          simp only [batchUpdateSpecStep, hc, hv]
        rw [hstep, batchLoop_cons_returned d beaconState attestation rest a a2 r hv]
        exact batchLoop_eq_spec d beaconState rest a2
      | panicked =>
        have hstep : batchUpdateSpecStep d beaconState (a, .returned none) attestation
            = (a2, .panicked) := by
          simp only [batchUpdateSpecStep, hc, hv]
        rw [hstep, batchLoop_cons_panicked d beaconState attestation rest a a2 hv,
          batchUpdateSpecStep_fold_panicked]
      | blocked =>
        have hstep : batchUpdateSpecStep d beaconState (a, .returned none) attestation
            = (a2, .blocked) := by
          simp only [batchUpdateSpecStep, hc, hv]
        rw [hstep, batchLoop_cons_blocked d beaconState attestation rest a a2 hv,
          batchUpdateSpecStep_fold_blocked]


/-! ## Calls that do not return -/

/-- With committee entries that fit an `int` the loop does not panic. -/
theorem updateLoop_no_panic (d : Deps) (beaconState : BeaconState) (attestation : Attestation)
    (committee : List Nat) (hsmall : ∀ c ∈ committee, c < 2 ^ 63) :
    ∀ (n i defers : Nat) (a : Service),
    (defers = 0 ∨ (defers = 1 ∧ a.store.mu.writer = true)) →
    (updateLoop d beaconState attestation committee n i defers a).2 ≠ .panicked := by
  have hleave : ∀ (defers : Nat) (a : Service) (r : Outcome (Option Error)),
      (defers = 0 ∨ (defers = 1 ∧ a.store.mu.writer = true)) → r ≠ .panicked →
      (leave defers a r).2 ≠ .panicked := by
    intro defers a r hinv hr
    rcases hinv with h0 | ⟨h1, hw⟩
    · subst h0
      rw [leave_zero]
      exact hr
    · subst h1
      rw [leave_one a r hw]
      exact hr
  intro n
  induction n with
  | zero =>
    intro i defers a hinv
    exact hleave defers a _ hinv (by simp)
  | succ n ih =>
    intro i defers a hinv
    by_cases hbit : attestation.AggregationBits.BitAt i = true
    · by_cases hlen : committee.length ≤ i
      · rw [updateLoop_malformed d beaconState attestation committee n i defers a hbit
          (Or.inl hlen)]
        exact hleave defers a _ hinv (by simp)
      · have hi : i < committee.length := Nat.lt_of_not_ge hlen
        by_cases hge : (beaconState.Validators.length : Int) ≤ toInt committee[i]
        · rw [updateLoop_malformed d beaconState attestation committee n i defers a hbit
            (Or.inr ⟨committee[i], List.getElem?_eq_getElem hi, hge⟩)]
          exact hleave defers a _ hinv (by simp)
        · have hc : committee[i] < 2 ^ 63 := hsmall _ (List.getElem_mem hi)
          have hv : committee[i] < beaconState.Validators.length := by
            rw [toInt_of_lt _ hc] at hge
            omega
          rw [updateLoop_reached d beaconState attestation committee n i defers a hbit hi hge,
            List.getElem?_eq_getElem hv]
          cases hl : a.store.mu.Lock with
          | none => simp
          | some mu =>
            have hmu : mu.writer = true := by
              unfold RWMutex.Lock at hl
              split at hl
              · exact absurd hl (by simp)
              · injection hl with hl
                rw [← hl]
            have hd : defers = 0 := by
              rcases hinv with h0 | ⟨_, hw⟩
              · exact h0
              · simp [RWMutex.Lock, hw] at hl
            subst hd
            exact ih (i + 1) (0 + 1) _ (Or.inr ⟨rfl, hmu⟩)
    · have hb : attestation.AggregationBits.BitAt i = false := by
        cases h : attestation.AggregationBits.BitAt i
        · rfl
        · exact absurd h hbit
      rw [updateLoop_clear d beaconState attestation committee n i defers a hb]
      exact ih (i + 1) defers a hinv

/-- A loop that ends waiting for the lock leaves a store whose lock cannot be had. -/
theorem updateLoop_blocked_lock (d : Deps) (beaconState : BeaconState)
    (attestation : Attestation) (committee : List Nat) :
    ∀ (n i defers : Nat) (a : Service),
    (updateLoop d beaconState attestation committee n i defers a).2 = .blocked →
    (updateLoop d beaconState attestation committee n i defers a).1.store.mu.Lock = none := by
  have hleave : ∀ (defers : Nat) (a : Service) (r : Outcome (Option Error)),
      r ≠ .blocked → (leave defers a r).2 ≠ .blocked := by
    intro defers a r hr
    rcases leave_outcome defers a r with h | h
    · rw [h]
      exact hr
    · rw [h]
      simp
  intro n
  induction n with
  | zero =>
    intro i defers a h
    exact absurd h (hleave defers a _ (by simp))
  | succ n ih =>
    intro i defers a h
    rcases updateLoop_step_cases d beaconState attestation committee n i defers a with
      e | e | e | ⟨hl, e⟩ | ⟨mu, pubkey, _, e⟩
    · rw [e] at h ⊢
      exact ih (i + 1) defers a h
    · rw [e] at h
      exact absurd h (hleave defers a _ (by simp))
    · rw [e] at h
      exact absurd h (hleave defers a _ (by simp))
    · rw [e]
      exact hl
    · rw [e] at h ⊢
      exact ih (i + 1) (defers + 1) _ h

/-- On a store whose lock cannot be had the loop changes nothing. -/
theorem updateLoop_lock_held (d : Deps) (beaconState : BeaconState)
    (attestation : Attestation) (committee : List Nat) :
    ∀ (n i : Nat) (a : Service), a.store.mu.Lock = none →
    (updateLoop d beaconState attestation committee n i 0 a).1 = a := by
  intro n
  induction n with
  | zero =>
    intro i a _
    rfl
  | succ n ih =>
    intro i a hl
    rcases updateLoop_step_cases d beaconState attestation committee n i 0 a with
      e | e | e | ⟨_, e⟩ | ⟨mu, pubkey, hs, e⟩
    · rw [e]
      exact ih (i + 1) a hl
    · rw [e, leave_zero]
    · rw [e, leave_zero]
    · rw [e]
    · rw [hl] at hs
      exact absurd hs (by simp)

theorem updateAttestation_lock_held (d : Deps) (a : Service) (beaconState : BeaconState)
    (attestation : Attestation) (hl : a.store.mu.Lock = none) :
    (updateAttestation d a beaconState attestation).1 = a := by
  cases h : d.CrosslinkCommittee beaconState (d.CurrentEpoch beaconState)
      attestation.Data.Crosslink.Shard with
  | error err => rw [updateAttestation_committee_error d a beaconState attestation err h]
  | ok committee =>
    rw [updateAttestation_committee_ok d a beaconState attestation committee h]
    exact updateLoop_lock_held d beaconState attestation committee _ 0 a hl

theorem foldl_updateAttestation_lock_held (d : Deps) (beaconState : BeaconState) :
    ∀ (atts : List Attestation) (a : Service), a.store.mu.Lock = none →
    atts.foldl (fun s att => (updateAttestation d s beaconState att).1) a = a
  | [], a, _ => rfl
  | attestation :: rest, a, hl => by
    rw [List.foldl_cons, updateAttestation_lock_held d a beaconState attestation hl]
    exact foldl_updateAttestation_lock_held d beaconState rest a hl

/-- The service after the batch loop is the fold of `updateAttestation` over the items. -/
theorem batchLoop_eq_foldl (d : Deps) (beaconState : BeaconState) :
    ∀ (atts : List Attestation) (a : Service),
    (∀ att ∈ atts, ∀ committee, d.CrosslinkCommittee beaconState (d.CurrentEpoch beaconState)
      att.Data.Crosslink.Shard = .ok committee → ∀ c ∈ committee, c < 2 ^ 63) →
    (batchLoop d beaconState atts a).1
      = atts.foldl (fun s att => (updateAttestation d s beaconState att).1) a
  | [], a, _ => rfl
  | attestation :: rest, a, hsmall => by
    have hsmall2 : ∀ att ∈ rest, ∀ committee,
        d.CrosslinkCommittee beaconState (d.CurrentEpoch beaconState)
          att.Data.Crosslink.Shard = .ok committee → ∀ c ∈ committee, c < 2 ^ 63 :=
      fun att h => hsmall att (List.mem_cons_of_mem _ h)
    rw [List.foldl_cons]
    rcases hv : updateAttestation d a beaconState attestation with ⟨a2, o⟩
    cases o with
    | returned r =>
      rw [batchLoop_cons_returned d beaconState attestation rest a a2 r hv]
      exact batchLoop_eq_foldl d beaconState rest a2 hsmall2
    | panicked =>
      exfalso
      cases hc : d.CrosslinkCommittee beaconState (d.CurrentEpoch beaconState)
          attestation.Data.Crosslink.Shard with
      | error err =>
        rw [updateAttestation_committee_error d a beaconState attestation err hc] at hv
        simp at hv
      | ok committee =>
        rw [updateAttestation_committee_ok d a beaconState attestation committee hc] at hv
        have hnp := updateLoop_no_panic d beaconState attestation committee
          (hsmall attestation (List.mem_cons_self _ _) committee hc)
          attestation.AggregationBits.Len 0 0 a (Or.inl rfl)
        rw [hv] at hnp
        exact hnp rfl
    | blocked =>
      rw [batchLoop_cons_blocked d beaconState attestation rest a a2 hv]
      have hl : a2.store.mu.Lock = none := by
        cases hc : d.CrosslinkCommittee beaconState (d.CurrentEpoch beaconState)
            attestation.Data.Crosslink.Shard with
        | error err =>
          rw [updateAttestation_committee_error d a beaconState attestation err hc] at hv
          simp at hv
        | ok committee =>
          rw [updateAttestation_committee_ok d a beaconState attestation committee hc] at hv
          have hb := updateLoop_blocked_lock d beaconState attestation committee
            attestation.AggregationBits.Len 0 0 a (by rw [hv])
          rw [hv] at hb
          exact hb
      exact (foldl_updateAttestation_lock_held d beaconState rest a2 hl).symm


/-! ## The claims -/

/-- C1: the adapter raises its own error, `invalid validator index`, exactly when the index
is at or past the end of the registry, and then it is all it returns. For an index in range
the call waits for the read lock, returns `(nil, nil)`, or hands back what the block store's
`AttestationTarget` gave for a recorded block root the store has: no absent key, nil entry
or unknown root makes it raise. -/
theorem c1_error_iff_index_out_of_range (d : Deps) (db : BeaconDB) (a : Service)
    (beaconState : BeaconState) (index : Nat) :
    ((∃ t i, (LatestAttestationTarget d db a beaconState index).2
          = .returned (t, some (.invalidValidatorIndex i)))
        ↔ index ≥ beaconState.Validators.length)
    ∧ (index ≥ beaconState.Validators.length →
        LatestAttestationTarget d db a beaconState index
          = (a, .returned (none, some (.invalidValidatorIndex index))))
    ∧ (∀ h : index < beaconState.Validators.length,
        (LatestAttestationTarget d db a beaconState index).2 = .blocked
        ∨ (LatestAttestationTarget d db a beaconState index).2 = .returned (none, none)
        ∨ ∃ att : Attestation,
            a.store.m (d.ToBytes48 beaconState.Validators[index].PublicKey) = some (some att)
            ∧ db.HasBlock (d.ToBytes32 att.Data.BeaconBlockRoot) = true
            ∧ (LatestAttestationTarget d db a beaconState index).2
              = .returned ((db.AttestationTarget (d.ToBytes32 att.Data.BeaconBlockRoot)).1,
                  (db.AttestationTarget (d.ToBytes32 att.Data.BeaconBlockRoot)).2.map
                    Error.collaborator)) := by
  have hin : ∀ h : index < beaconState.Validators.length,
      (LatestAttestationTarget d db a beaconState index).2 = .blocked
      ∨ (LatestAttestationTarget d db a beaconState index).2 = .returned (none, none)
      ∨ ∃ att : Attestation,
          a.store.m (d.ToBytes48 beaconState.Validators[index].PublicKey) = some (some att)
          ∧ db.HasBlock (d.ToBytes32 att.Data.BeaconBlockRoot) = true
          ∧ (LatestAttestationTarget d db a beaconState index).2
            = .returned ((db.AttestationTarget (d.ToBytes32 att.Data.BeaconBlockRoot)).1,
                (db.AttestationTarget (d.ToBytes32 att.Data.BeaconBlockRoot)).2.map
                  Error.collaborator) := by
    intro h
    cases hw : a.store.mu.writer with
    | true =>
      rw [LatestAttestationTarget_writer_held d db a beaconState index h hw]
      exact Or.inl rfl
    | false =>
      rw [LatestAttestationTarget_in_range d db a beaconState index h hw]
      right
      unfold lookupTarget
      split
      · exact Or.inl rfl
      · exact Or.inl rfl
      · next att hm =>
        by_cases hb : db.HasBlock (d.ToBytes32 att.Data.BeaconBlockRoot) = true
        · right
          refine ⟨att, hm, hb, ?_⟩
          simp [hb]
        · left
          simp [hb]
  refine ⟨⟨?_, ?_⟩, ?_, hin⟩
  · rintro ⟨t, i, h⟩
    by_contra hlt
    rcases hin (Nat.lt_of_not_ge hlt) with e | e | ⟨att, _, _, e⟩
    · rw [e] at h
      exact absurd h (by simp)
    · rw [e] at h
      exact absurd h (by simp)
    · rw [e] at h
      cases hx : (db.AttestationTarget (d.ToBytes32 att.Data.BeaconBlockRoot)).2 with
      | none => rw [hx] at h; simp at h
      | some msg => rw [hx] at h; simp at h
  · intro h
    exact ⟨none, index, by rw [LatestAttestationTarget_out_of_range d db a beaconState index h]⟩
  · intro h
    exact LatestAttestationTarget_out_of_range d db a beaconState index h

/-- C2: for an index in range, with no writer holding the lock, the adapter returns
`(nil, nil)` and leaves the service as it was whenever the validator's key has no entry in
the map, or has an entry whose block root the block store does not have. -/
theorem c2_none_when_unrecorded_or_unknown_root (d : Deps) (db : BeaconDB) (a : Service)
    (beaconState : BeaconState) (index : Nat) (h : index < beaconState.Validators.length)
    (hw : a.store.mu.writer = false)
    (hcase : a.store.m (d.ToBytes48 beaconState.Validators[index].PublicKey) = none
      ∨ ∃ att, a.store.m (d.ToBytes48 beaconState.Validators[index].PublicKey) = some (some att)
          ∧ db.HasBlock (d.ToBytes32 att.Data.BeaconBlockRoot) = false) :
    LatestAttestationTarget d db a beaconState index = (a, .returned (none, none)) := by
  rw [LatestAttestationTarget_in_range d db a beaconState index h hw]
  rcases hcase with hnone | ⟨att, hsome, hhas⟩
  · simp [lookupTarget, hnone]
  · simp [lookupTarget, hsome, hhas]

/-- C2 at an instance: validator 1 has a recorded attestation for a root the block store
does not have. -/
theorem c2_witness :
    LatestAttestationTarget sampleDeps failingDB
        (InsertAttestationIntoStore NewAttestationService (sampleKey 11)
          (some (sampleAtt [false, true] 5 0))).1 sampleState 1
      = ((InsertAttestationIntoStore NewAttestationService (sampleKey 11)
          (some (sampleAtt [false, true] 5 0))).1, .returned (none, none)) :=
  c2_none_when_unrecorded_or_unknown_root sampleDeps failingDB _ sampleState 1 (by decide)
    (by decide) (Or.inr ⟨sampleAtt [false, true] 5 0, by decide, by decide⟩)

/-- C3: for an index in range whose key maps to an attestation with a block root the block
store has, and with no writer holding the lock, the adapter returns exactly the pair the
block store's `AttestationTarget` gives for that root, its error included. -/
theorem c3_returns_block_store_target (d : Deps) (db : BeaconDB) (a : Service)
    (beaconState : BeaconState) (index : Nat) (att : Attestation)
    (h : index < beaconState.Validators.length) (hw : a.store.mu.writer = false)
    (hrec : a.store.m (d.ToBytes48 beaconState.Validators[index].PublicKey) = some (some att))
    (hhas : db.HasBlock (d.ToBytes32 att.Data.BeaconBlockRoot) = true) :
    LatestAttestationTarget d db a beaconState index
      = (a, .returned ((db.AttestationTarget (d.ToBytes32 att.Data.BeaconBlockRoot)).1,
          (db.AttestationTarget (d.ToBytes32 att.Data.BeaconBlockRoot)).2.map
            Error.collaborator)) := by
  exact LatestAttestationTarget_recorded d db a beaconState index att h hw hrec hhas

/-- C3 at an instance: validator 1 voted for `R`, which the block store has with the target
`(40, R, P)`. -/
theorem c3_witness :
    LatestAttestationTarget sampleDeps sampleDB
        (InsertAttestationIntoStore NewAttestationService (sampleKey 11)
          (some (sampleAtt [false, true] 5 0))).1 sampleState 1
      = ((InsertAttestationIntoStore NewAttestationService (sampleKey 11)
          (some (sampleAtt [false, true] 5 0))).1,
         .returned (some ⟨40, rootR, rootP⟩, none)) :=
  c3_returns_block_store_target sampleDeps sampleDB _ sampleState 1
    (sampleAtt [false, true] 5 0) (by decide) (by decide) (by decide) (by decide)

/-- C4 (code bug): validator 1 attests with the target epoch 1 and then with the target
epoch 2; both calls return nil, and the entry kept is the first one, with the target epoch
1, although 2 is the highest target epoch submitted for the key. -/
theorem c4_higher_target_is_not_stored :
    (updateAttestation sampleDeps NewAttestationService sampleState
        (sampleAtt [false, true] 1 0)).2 = .returned none
    ∧ (updateAttestation sampleDeps
        (updateAttestation sampleDeps NewAttestationService sampleState
          (sampleAtt [false, true] 1 0)).1
        sampleState (sampleAtt [false, true] 2 0)).2 = .returned none
    ∧ (updateAttestation sampleDeps
        (updateAttestation sampleDeps NewAttestationService sampleState
          (sampleAtt [false, true] 1 0)).1
        sampleState (sampleAtt [false, true] 2 0)).1.store.m (sampleKey 11)
        = some (some (sampleAtt [false, true] 1 0))
    ∧ (sampleAtt [false, true] 1 0).Data.Target.Epoch
        < (sampleAtt [false, true] 2 0).Data.Target.Epoch := by
  decide


/-- C5, the claim as stated fails. The specification's own scenario (committee
`[0, 1, 2, 3]`, bits 1 and 3 set, target epoch 5): the call asks for the write lock a second
time while it holds it and never returns, and the queries for validators 1 and 3 wait for
the lock. A single valid set bit with the target epoch 0: the call returns nil, nothing is
recorded, and the query for validator 1 yields `(nil, nil)` although the block store has
the root with the target `(40, R, P)`. A single valid set bit with the target epoch 5 and a
block store that does not have the root: the query yields `(nil, nil)`, not the store's
answer for the root. -/
theorem c5_counterexample :
    (updateAttestation sampleDeps NewAttestationService sampleState
        (sampleAtt [false, true, false, true] 5 0)).2 = .blocked
    ∧ (LatestAttestationTarget sampleDeps sampleDB
        (updateAttestation sampleDeps NewAttestationService sampleState
          (sampleAtt [false, true, false, true] 5 0)).1 sampleState 1).2 = .blocked
    ∧ (LatestAttestationTarget sampleDeps sampleDB
        (updateAttestation sampleDeps NewAttestationService sampleState
          (sampleAtt [false, true, false, true] 5 0)).1 sampleState 3).2 = .blocked
    ∧ (updateAttestation sampleDeps NewAttestationService sampleState
        (sampleAtt [false, true] 0 0)).2 = .returned none
    ∧ (LatestAttestationTarget sampleDeps sampleDB
        (updateAttestation sampleDeps NewAttestationService sampleState
          (sampleAtt [false, true] 0 0)).1 sampleState 1).2 = .returned (none, none)
    ∧ sampleDB.HasBlock (sampleDeps.ToBytes32 (sampleAtt [false, true] 0 0).Data.BeaconBlockRoot)
        = true
    ∧ sampleDB.AttestationTarget
        (sampleDeps.ToBytes32 (sampleAtt [false, true] 0 0).Data.BeaconBlockRoot)
        = (some ⟨40, rootR, rootP⟩, none)
    ∧ (LatestAttestationTarget sampleDeps failingDB
        (updateAttestation sampleDeps NewAttestationService sampleState
          (sampleAtt [false, true] 5 0)).1 sampleState 1).2 = .returned (none, none)
    ∧ failingDB.AttestationTarget
        (sampleDeps.ToBytes32 (sampleAtt [false, true] 5 0).Data.BeaconBlockRoot)
        = (none, some "no such block") := by
  decide

/-- C5, amended: starting from an empty pool, for every head state, committee and
attestation with exactly one set bit `i`, valid (`i < len(C)`, `C[i] < len(validators)`),
whose target boundary slot is not 0 in `uint64` and whose block root the block store has,
`update_one` returns nil; afterwards the query for validator `C[i]` yields what the block
store's `AttestationTarget` gives for the root, and the query for every validator with
another key yields `(nil, nil)`. -/
theorem c5_single_insertion (d : Deps) (db : BeaconDB) (beaconState : BeaconState)
    (att : Attestation) (committee : List Nat) (i : Nat)
    (hC : d.CrosslinkCommittee beaconState (d.CurrentEpoch beaconState)
      att.Data.Crosslink.Shard = .ok committee)
    (hone : List.count true att.AggregationBits = 1)
    (hbit : att.AggregationBits.BitAt i = true)
    (hi : i < committee.length) (hv : committee[i] < beaconState.Validators.length)
    (hslot : (att.Data.Target.Epoch * d.SlotsPerEpoch) % 2 ^ 64 ≠ 0)
    (hhas : db.HasBlock (d.ToBytes32 att.Data.BeaconBlockRoot) = true) :
    (updateAttestation d NewAttestationService beaconState att).2 = .returned none
    ∧ (LatestAttestationTarget d db (updateAttestation d NewAttestationService beaconState att).1
        beaconState committee[i]).2
        = .returned ((db.AttestationTarget (d.ToBytes32 att.Data.BeaconBlockRoot)).1,
            (db.AttestationTarget (d.ToBytes32 att.Data.BeaconBlockRoot)).2.map
              Error.collaborator)
    ∧ ∀ (j : Nat) (hj : j < beaconState.Validators.length),
        d.ToBytes48 beaconState.Validators[j].PublicKey
          ≠ d.ToBytes48 beaconState.Validators[committee[i]].PublicKey →
        (LatestAttestationTarget d db (updateAttestation d NewAttestationService beaconState att).1
          beaconState j).2 = .returned (none, none) := by
  have hu : updateAttestation d NewAttestationService beaconState att
      = ({ NewAttestationService with store :=
            { mu := { writer := false, readers := 0 }
              m := mapSet NewAttestationService.store.m
                (d.ToBytes48 beaconState.Validators[committee[i]].PublicKey) (some att) } },
         .returned none) := by
    rw [updateAttestation_committee_ok d _ beaconState att committee hC,
      updateLoop_one_bit d beaconState att committee _ i (Nat.le_of_eq hone) hbit hi hv rfl,
      mergeEntry_of_absent d _ _ att rfl hslot]
  rw [hu]
  refine ⟨rfl, ?_, ?_⟩
  · rw [LatestAttestationTarget_recorded d db _ beaconState committee[i] att hv rfl (by simp [mapSet]) hhas]
  · intro j hj hne
    rw [LatestAttestationTarget_in_range d db _ beaconState j hj rfl]
    simp [lookupTarget, mapSet, hne, NewAttestationService]


/-- C5 at an instance: four validators, committee `[0, 1, 2, 3]`, bit 1 alone set, target
epoch 5; validator 1 yields `(40, R, P)` and validators 0, 2 and 3 yield `(nil, nil)`. -/
theorem c5_witness :
    (updateAttestation sampleDeps NewAttestationService sampleState
        (sampleAtt [false, true, false, false] 5 0)).2 = .returned none
    ∧ (LatestAttestationTarget sampleDeps sampleDB
        (updateAttestation sampleDeps NewAttestationService sampleState
          (sampleAtt [false, true, false, false] 5 0)).1 sampleState 1).2
        = .returned (some ⟨40, rootR, rootP⟩, none)
    ∧ ∀ (j : Nat) (hj : j < sampleState.Validators.length),
        sampleDeps.ToBytes48 sampleState.Validators[j].PublicKey
          ≠ sampleDeps.ToBytes48 sampleState.Validators[1].PublicKey →
        (LatestAttestationTarget sampleDeps sampleDB
          (updateAttestation sampleDeps NewAttestationService sampleState
            (sampleAtt [false, true, false, false] 5 0)).1 sampleState j).2
          = .returned (none, none) :=
  c5_single_insertion sampleDeps sampleDB sampleState (sampleAtt [false, true, false, false] 5 0)
    [0, 1, 2, 3] 1 rfl (by decide) (by decide) (by decide) (by decide) (by decide) (by decide)

/-- C6, the claim as stated fails: validator 1 has no entry, bit 1 is its valid set bit and
the call returns nil, yet nothing is written when the target epoch is 0, and nothing is
written when the target epoch is `2 ^ 61`, whose product with 8 slots an epoch wraps to 0.
With the target epoch 5 and the valid bits 1 and 3 set, validator 3 has no entry before and
none when the call stops at its second request for the lock. -/
theorem c6_counterexample :
    NewAttestationService.store.m (sampleKey 11) = none
    ∧ (updateAttestation sampleDeps NewAttestationService sampleState
        (sampleAtt [false, true] 0 0)).2 = .returned none
    ∧ (updateAttestation sampleDeps NewAttestationService sampleState
        (sampleAtt [false, true] 0 0)).1.store.m (sampleKey 11) = none
    ∧ (updateAttestation sampleDeps NewAttestationService sampleState
        (sampleAtt [false, true] (2 ^ 61) 0)).2 = .returned none
    ∧ (updateAttestation sampleDeps NewAttestationService sampleState
        (sampleAtt [false, true] (2 ^ 61) 0)).1.store.m (sampleKey 11) = none
    ∧ NewAttestationService.store.m (sampleKey 13) = none
    ∧ (updateAttestation sampleDeps NewAttestationService sampleState
        (sampleAtt [false, true, false, true] 5 0)).2 = .blocked
    ∧ (updateAttestation sampleDeps NewAttestationService sampleState
        (sampleAtt [false, true, false, true] 5 0)).1.store.m (sampleKey 13) = none := by
  decide

/-- C6, amended: for an attestation whose only set bit `i` is valid, on a pool whose lock
is free, `update_one` returns nil with the lock free again and the entries of all other
keys as they were; the participating validator's key gets the attestation when it had no
entry and the target boundary slot is not 0 in `uint64`, stays without an entry when it had
none and that slot is 0, and keeps its entry when it had one. -/
theorem c6_write_iff_absent_and_slot_positive (d : Deps) (a : Service)
    (beaconState : BeaconState) (att : Attestation) (committee : List Nat) (i : Nat)
    (hC : d.CrosslinkCommittee beaconState (d.CurrentEpoch beaconState)
      att.Data.Crosslink.Shard = .ok committee)
    (hone : List.count true att.AggregationBits = 1)
    (hbit : att.AggregationBits.BitAt i = true)
    (hi : i < committee.length) (hv : committee[i] < beaconState.Validators.length)
    (hfree : a.store.mu = { writer := false, readers := 0 }) :
    (updateAttestation d a beaconState att).2 = .returned none
    ∧ (updateAttestation d a beaconState att).1.store.mu = { writer := false, readers := 0 }
    ∧ (∀ k, k ≠ d.ToBytes48 beaconState.Validators[committee[i]].PublicKey →
        (updateAttestation d a beaconState att).1.store.m k = a.store.m k)
    ∧ (a.store.m (d.ToBytes48 beaconState.Validators[committee[i]].PublicKey) = none →
        (att.Data.Target.Epoch * d.SlotsPerEpoch) % 2 ^ 64 ≠ 0 →
        (updateAttestation d a beaconState att).1.store.m
          (d.ToBytes48 beaconState.Validators[committee[i]].PublicKey) = some (some att))
    ∧ (a.store.m (d.ToBytes48 beaconState.Validators[committee[i]].PublicKey) = none →
        (att.Data.Target.Epoch * d.SlotsPerEpoch) % 2 ^ 64 = 0 →
        (updateAttestation d a beaconState att).1.store.m
          (d.ToBytes48 beaconState.Validators[committee[i]].PublicKey) = none)
    ∧ (a.store.m (d.ToBytes48 beaconState.Validators[committee[i]].PublicKey) ≠ none →
        (updateAttestation d a beaconState att).1.store.m
          (d.ToBytes48 beaconState.Validators[committee[i]].PublicKey)
          = a.store.m (d.ToBytes48 beaconState.Validators[committee[i]].PublicKey)) := by
  rw [updateAttestation_committee_ok d a beaconState att committee hC,
    updateLoop_one_bit d beaconState att committee a i (Nat.le_of_eq hone) hbit hi hv hfree]
  refine ⟨rfl, rfl, ?_, ?_, ?_, ?_⟩
  · intro k hk
    show mergeEntry d a.store.m _ att k = a.store.m k
    by_cases hp : a.store.m (d.ToBytes48 beaconState.Validators[committee[i]].PublicKey) = none
    · by_cases hz : (att.Data.Target.Epoch * d.SlotsPerEpoch) % 2 ^ 64 = 0
      · rw [mergeEntry_of_slot_zero d _ _ att hz]
      · rw [mergeEntry_of_absent d _ _ att hp hz]
        simp [mapSet, hk]
    · rw [mergeEntry_of_present d _ _ att hp]
  · intro hp hz
    show mergeEntry d a.store.m _ att _ = some (some att)
    rw [mergeEntry_of_absent d _ _ att hp hz]
    simp [mapSet]
  · intro hp hz
    show mergeEntry d a.store.m _ att _ = none
    rw [mergeEntry_of_slot_zero d _ _ att hz]
    exact hp
  · intro hp
    show mergeEntry d a.store.m _ att _ = _
    rw [mergeEntry_of_present d _ _ att hp]

/-- C6 at an instance: validator 1 attests alone with the target epoch 5 on a new pool. -/
theorem c6_witness :
    (updateAttestation sampleDeps NewAttestationService sampleState
        (sampleAtt [false, true] 5 0)).2 = .returned none
    ∧ (updateAttestation sampleDeps NewAttestationService sampleState
        (sampleAtt [false, true] 5 0)).1.store.m (sampleKey 11)
        = some (some (sampleAtt [false, true] 5 0)) :=
  have h := c6_write_iff_absent_and_slot_positive sampleDeps NewAttestationService sampleState
    (sampleAtt [false, true] 5 0) [0, 1, 2, 3] 1 rfl (by decide) (by decide) (by decide)
    (by decide) rfl
  ⟨h.1, h.2.2.2.1 rfl (by decide)⟩

/-- C7: `update_one` never replaces a recorded entry: a key that has an entry before
`updateAttestation`, `UpdateLatestAttestation` or `BatchUpdateLatestAttestation` maps to
the same attestation afterwards, however the call ends. -/
theorem c7_recorded_entry_is_never_replaced (d : Deps) (db : BeaconDB) (a : Service)
    (beaconState : BeaconState) (att : Attestation) (atts : Option (List Attestation))
    (k : Bytes) (hk : a.store.m k ≠ none) :
    (updateAttestation d a beaconState att).1.store.m k = a.store.m k
    ∧ (UpdateLatestAttestation d db a att).1.store.m k = a.store.m k
    ∧ (BatchUpdateLatestAttestation d db a atts).1.store.m k = a.store.m k := by
  refine ⟨updateAttestation_keeps_present d a beaconState att k hk, ?_, ?_⟩
  · unfold UpdateLatestAttestation
    split
    · rfl
    · exact updateAttestation_keeps_present d a _ att k hk
  · unfold BatchUpdateLatestAttestation
    split
    · rfl
    · split
      · rfl
      · exact batchLoop_keeps_present d _ k _ a hk

/-- C7 at an instance: validator 1 is recorded with the target epoch 1; attestations with
the target epochs 2 and 3 leave the entry as it is. -/
theorem c7_witness :
    (updateAttestation sampleDeps
        (InsertAttestationIntoStore NewAttestationService (sampleKey 11)
          (some (sampleAtt [false, true] 1 0))).1
        sampleState (sampleAtt [false, true] 2 0)).1.store.m (sampleKey 11)
      = some (some (sampleAtt [false, true] 1 0))
    ∧ (BatchUpdateLatestAttestation sampleDeps sampleDB
        (InsertAttestationIntoStore NewAttestationService (sampleKey 11)
          (some (sampleAtt [false, true] 1 0))).1
        (some [sampleAtt [false, true] 2 0, sampleAtt [false, true] 3 0])).1.store.m
          (sampleKey 11)
      = some (some (sampleAtt [false, true] 1 0)) :=
  have h := c7_recorded_entry_is_never_replaced sampleDeps sampleDB
    (InsertAttestationIntoStore NewAttestationService (sampleKey 11)
      (some (sampleAtt [false, true] 1 0))).1
    sampleState (sampleAtt [false, true] 2 0)
    (some [sampleAtt [false, true] 2 0, sampleAtt [false, true] 3 0]) (sampleKey 11)
    (by decide)
  ⟨h.1, h.2.2⟩


/-- C8, the claim as stated fails: the committee has four members and the attestation sets
bit 0 and bit 4, so it is malformed (4 is not a position of the committee). The call returns
nil, but bit 0 was merged before the malformed bit was met: validator 0 has an entry
afterwards and had none before. And with the committee `[2 ^ 63]` and four validators, the
committee value of bit 0 is past the validator count, but as an `int` it is negative, the
check lets it through and indexing the registry panics. -/
theorem c8_counterexample :
    (sampleAtt [true, false, false, false, true] 5 0).AggregationBits.BitAt 4 = true
    ∧ sampleDeps.CrosslinkCommittee sampleState (sampleDeps.CurrentEpoch sampleState) 0
        = .ok [0, 1, 2, 3]
    ∧ NewAttestationService.store.m (sampleKey 10) = none
    ∧ (updateAttestation sampleDeps NewAttestationService sampleState
        (sampleAtt [true, false, false, false, true] 5 0)).2 = .returned none
    ∧ (updateAttestation sampleDeps NewAttestationService sampleState
        (sampleAtt [true, false, false, false, true] 5 0)).1.store.m (sampleKey 10)
        = some (some (sampleAtt [true, false, false, false, true] 5 0))
    ∧ (sampleAtt [true] 5 0).AggregationBits.BitAt 0 = true
    ∧ hugeIndexDeps.CrosslinkCommittee sampleState (hugeIndexDeps.CurrentEpoch sampleState) 0
        = .ok [2 ^ 63]
    ∧ sampleState.Validators.length ≤ 2 ^ 63
    ∧ (updateAttestation hugeIndexDeps NewAttestationService sampleState
        (sampleAtt [true] 5 0)).2 = .panicked :=
  ⟨by decide, rfl, by decide, by decide, by decide, by decide, rfl, by decide, by decide⟩

/-- C8, amended: for every pool state and head state, an attestation whose first set bit is
malformed (its index is at or past the committee length, or its committee value is at or
past the validator count and fits a signed 64-bit `int`) leaves the whole service unchanged
and returns nil. -/
theorem c8_first_set_bit_malformed_changes_nothing (d : Deps) (a : Service)
    (beaconState : BeaconState) (att : Attestation) (committee : List Nat) (i : Nat)
    (hC : d.CrosslinkCommittee beaconState (d.CurrentEpoch beaconState)
      att.Data.Crosslink.Shard = .ok committee)
    (hfirst : ∀ j, j < i → att.AggregationBits.BitAt j = false)
    (hbit : att.AggregationBits.BitAt i = true)
    (hbad : committee.length ≤ i
      ∨ ∃ c, committee[i]? = some c ∧ beaconState.Validators.length ≤ c ∧ c < 2 ^ 63) :
    updateAttestation d a beaconState att = (a, .returned none) := by
  have hlen := BitAt_lt_Len _ i hbit
  obtain ⟨r, hr⟩ : ∃ r, att.AggregationBits.Len = i + (r + 1) :=
    ⟨att.AggregationBits.Len - i - 1, by omega⟩
  have hbad2 : committee.length ≤ i ∨
      ∃ c, committee[i]? = some c ∧ (beaconState.Validators.length : Int) ≤ toInt c := by
    rcases hbad with h | ⟨c, hc, hge, hsmall⟩
    · exact Or.inl h
    · refine Or.inr ⟨c, hc, ?_⟩
      rw [toInt_of_lt c hsmall]
      exact_mod_cast hge
  rw [updateAttestation_committee_ok d a beaconState att committee hC, hr,
    updateLoop_skip d beaconState att committee i (r + 1) 0 0 a
      (fun j _ h2 => hfirst j (by omega))]
  simp only [Nat.zero_add]
  rw [updateLoop_malformed d beaconState att committee r i 0 a hbit hbad2, leave_zero]

/-- C8 at an instance: bit 4 alone is set and the committee has four members. -/
theorem c8_witness :
    updateAttestation sampleDeps NewAttestationService sampleState
        (sampleAtt [false, false, false, false, true] 5 0)
      = (NewAttestationService, .returned none) :=
  c8_first_set_bit_malformed_changes_nothing sampleDeps NewAttestationService sampleState
    (sampleAtt [false, false, false, false, true] 5 0) [0, 1, 2, 3] 4 rfl
    (by decide) (by decide) (Or.inl (by decide))

/-- C9, the claim as stated fails: with a head state that cannot be read,
`BatchUpdateLatestAttestation` returns that error to its caller. -/
theorem c9_counterexample :
    (BatchUpdateLatestAttestation sampleDeps failingDB NewAttestationService
        (some [sampleAtt [false, true] 5 0])).2
      = .returned (some (.collaborator "head state not found")) := by
  decide

/-- C9, amended: when the head state is read, `BatchUpdateLatestAttestation` returns nil
for every vector of attestations with at most one set bit each (committee values fitting an
`int`, the lock free at the start) and hands the lock back: the failures of the committee
lookup of single items are swallowed. Whatever the vector, it returns no error then; a nil
vector returns nil without the head state being read; and for a vector that is not nil the
error of a head state that cannot be read is returned, with the service unchanged. -/
theorem c9_batch_returns_nil_when_head_state_is_read (d : Deps) (db : BeaconDB) (a : Service)
    (beaconState : BeaconState) (atts : List Attestation)
    (hs : db.HeadState = .ok beaconState)
    (hfree : a.store.mu = { writer := false, readers := 0 })
    (hone : ∀ att ∈ atts, List.count true att.AggregationBits ≤ 1)
    (hsmall : ∀ att ∈ atts, ∀ committee,
      d.CrosslinkCommittee beaconState (d.CurrentEpoch beaconState)
        att.Data.Crosslink.Shard = .ok committee → ∀ c ∈ committee, c < 2 ^ 63) :
    (BatchUpdateLatestAttestation d db a (some atts)).2 = .returned none
    ∧ (BatchUpdateLatestAttestation d db a (some atts)).1.store.mu
        = { writer := false, readers := 0 }
    ∧ (∀ (a2 : Service) (others : List Attestation) (err : Error),
        (BatchUpdateLatestAttestation d db a2 (some others)).2 ≠ .returned (some err))
    ∧ (∀ (db2 : BeaconDB) (a2 : Service),
        BatchUpdateLatestAttestation d db2 a2 none = (a2, .returned none))
    ∧ (∀ (db2 : BeaconDB) (a2 : Service) (others : List Attestation) (msg : String),
        db2.HeadState = .error msg →
        BatchUpdateLatestAttestation d db2 a2 (some others)
          = (a2, .returned (some (.collaborator msg)))) := by
  have hb : ∀ (a2 : Service) (others : List Attestation),
      BatchUpdateLatestAttestation d db a2 (some others) = batchLoop d beaconState others a2 := by
    intro a2 others
    unfold BatchUpdateLatestAttestation
    simp only [hs]
  refine ⟨?_, ?_, ?_, fun _ _ => rfl, ?_⟩
  rotate_left 3
  · intro db2 a2 others msg hmsg
    unfold BatchUpdateLatestAttestation
    simp only [hmsg]
  · rw [hb]
    exact (batchLoop_returns d beaconState atts a hfree hone hsmall).1
  · rw [hb]
    exact (batchLoop_returns d beaconState atts a hfree hone hsmall).2
  · intro a2 others err
    rw [hb]
    exact batchLoop_outcome d beaconState others a2 err

/-- The committee of the fixtures holds registry indices only. -/
theorem sampleDeps_committee_small (beaconState : BeaconState) (epoch shard : Nat)
    (committee : List Nat)
    (h : sampleDeps.CrosslinkCommittee beaconState epoch shard = .ok committee) :
    ∀ c ∈ committee, c < 2 ^ 63 := by
  simp only [sampleDeps] at h
  split at h
  · injection h with h
    subst h
    decide
  · exact absurd h (by simp)

/-- C9 at an instance: three attestations, the second for a shard without a committee. -/
theorem c9_witness :
    (BatchUpdateLatestAttestation sampleDeps sampleDB NewAttestationService
        (some [sampleAtt [false, true] 5 0, sampleAtt [true] 5 1,
          sampleAtt [false, false, true] 6 0])).2 = .returned none :=
  (c9_batch_returns_nil_when_head_state_is_read sampleDeps sampleDB NewAttestationService
    sampleState [sampleAtt [false, true] 5 0, sampleAtt [true] 5 1,
      sampleAtt [false, false, true] 6 0] rfl rfl (by decide)
    (fun att _ committee h => sampleDeps_committee_small sampleState _ _ committee h)).1

/-- C10: when the head state is read, the service after `BatchUpdateLatestAttestation`, and
the way the call ends, are those of the specification's batch update: `update_one` applied
to the items in order against that head state, an item whose committee lookup fails changing
nothing. Such an item can be taken out of the vector without any difference: every item
after it is applied as if it had not been there. With committee values that fit an `int`
the service after the call is the plain left fold of `updateAttestation` over the items. -/
theorem c10_batch_is_update_one_in_order (d : Deps) (db : BeaconDB)
    (beaconState : BeaconState) (hs : db.HeadState = .ok beaconState) :
    (∀ (a : Service) (atts : List Attestation),
        BatchUpdateLatestAttestation d db a (some atts) = batchUpdateSpec d beaconState atts a)
    ∧ (∀ (a : Service) (pre post : List Attestation) (bad : Attestation) (err : String),
        d.CrosslinkCommittee beaconState (d.CurrentEpoch beaconState)
          bad.Data.Crosslink.Shard = .error err →
        updateAttestation d a beaconState bad = (a, .returned (some (.collaborator err)))
        ∧ BatchUpdateLatestAttestation d db a (some (pre ++ bad :: post))
          = BatchUpdateLatestAttestation d db a (some (pre ++ post)))
    ∧ (∀ (a : Service) (atts : List Attestation),
        (∀ att ∈ atts, ∀ committee,
          d.CrosslinkCommittee beaconState (d.CurrentEpoch beaconState)
            att.Data.Crosslink.Shard = .ok committee → ∀ c ∈ committee, c < 2 ^ 63) →
        (BatchUpdateLatestAttestation d db a (some atts)).1
          = atts.foldl (fun s att => (updateAttestation d s beaconState att).1) a) := by
  have hb : ∀ (a : Service) (atts : List Attestation),
      BatchUpdateLatestAttestation d db a (some atts) = batchLoop d beaconState atts a := by
    intro a atts
    unfold BatchUpdateLatestAttestation
    simp only [hs]
  refine ⟨?_, ?_, ?_⟩
  rotate_left 2
  · intro a atts hsmall
    rw [hb]
    exact batchLoop_eq_foldl d beaconState atts a hsmall
  · intro a atts
    rw [hb]
    exact batchLoop_eq_spec d beaconState atts a
  · intro a pre post bad err hbad
    refine ⟨updateAttestation_committee_error d a beaconState bad err hbad, ?_⟩
    rw [hb, hb]
    exact batchLoop_drop_committee_error d beaconState bad post err hbad pre a

/-- C10 at an instance: the attestation for shard 1, which has no committee, stands between
two attestations for shard 0; validators 1 and 2 are both recorded afterwards. -/
theorem c10_witness :
    BatchUpdateLatestAttestation sampleDeps sampleDB NewAttestationService
        (some [sampleAtt [false, true] 5 0, sampleAtt [true] 5 1,
          sampleAtt [false, false, true] 6 0])
      = BatchUpdateLatestAttestation sampleDeps sampleDB NewAttestationService
        (some [sampleAtt [false, true] 5 0, sampleAtt [false, false, true] 6 0])
    ∧ (BatchUpdateLatestAttestation sampleDeps sampleDB NewAttestationService
        (some [sampleAtt [false, true] 5 0, sampleAtt [true] 5 1,
          sampleAtt [false, false, true] 6 0])).1.store.m (sampleKey 12)
      = some (some (sampleAtt [false, false, true] 6 0)) :=
  ⟨((c10_batch_is_update_one_in_order sampleDeps sampleDB sampleState rfl).2.1
      NewAttestationService [sampleAtt [false, true] 5 0] [sampleAtt [false, false, true] 6 0]
      (sampleAtt [true] 5 1) "no committee for the shard" rfl).2,
    by decide⟩

/-! ## The pool limit -/

theorem wrapInt64_of_range (x : Int) (h0 : 0 ≤ x) (h1 : x < 2 ^ 63) : wrapInt64 x = x := by
  unfold wrapInt64
  omega

/-- The limit the code computes when seven times the per-slot count fits an `int`. -/
theorem newPoolLimit_of_fitting (d : Deps) (count : Nat)
    (hspe2 : d.SlotsPerEpoch < 2 ^ 64) (hcount : count < 2 ^ 64)
    (hbound : count / d.SlotsPerEpoch * 7 < 2 ^ 63) :
    newPoolLimit d count = max 1 ((count / d.SlotsPerEpoch * 7 / 10 : Nat) : Int) := by
  unfold newPoolLimit
  rw [Nat.mod_eq_of_lt hspe2, Nat.mod_eq_of_lt hcount]
  have hk2 : count / d.SlotsPerEpoch < 2 ^ 63 := by omega
  have e : ((count / d.SlotsPerEpoch : Nat) : Int) * 7
      = ((count / d.SlotsPerEpoch * 7 : Nat) : Int) := by push_cast; ring
  have e2 : Int.tdiv (wrapInt64 (toInt (count / d.SlotsPerEpoch) * 7)) 10
      = ((count / d.SlotsPerEpoch * 7 / 10 : Nat) : Int) := by
    rw [toInt_of_lt _ hk2, wrapInt64_of_range _ (by omega) (by omega), e]
    exact (Int.ofNat_tdiv _ 10).symm
  dsimp only
  rw [e2]
  by_cases hz : ((count / d.SlotsPerEpoch * 7 / 10 : Nat) : Int) = 0
  · rw [if_pos hz, hz]
    simp
  · rw [if_neg hz]
    have hpos : (1 : Int) ≤ ((count / d.SlotsPerEpoch * 7 / 10 : Nat) : Int) := by omega
    rw [max_eq_right hpos]

theorem resetPool_head_error (d : Deps) (db2 : BeaconDB) (a : Service) (msg : String)
    (hs : db2.HeadState = .error msg) :
    resetPool d db2 a = (a, .returned (some (.collaborator msg))) := by
  unfold resetPool
  rw [hs]

theorem resetPool_count_error (d : Deps) (db2 : BeaconDB) (a : Service) (state : BeaconState)
    (msg : String) (hs : db2.HeadState = .ok state)
    (hc : d.ActiveValidatorCount state (d.CurrentEpoch state) = .error msg) :
    resetPool d db2 a = (a, .returned (some (.collaborator msg))) := by
  unfold resetPool
  rw [hs]
  dsimp only
  rw [hc]

theorem resetPool_count (d : Deps) (db2 : BeaconDB) (a : Service) (state : BeaconState)
    (count : Nat) (hs : db2.HeadState = .ok state)
    (hc : d.ActiveValidatorCount state (d.CurrentEpoch state) = .ok count) :
    resetPool d db2 a
      = if d.SlotsPerEpoch % 2 ^ 64 = 0 then (a, .panicked)
        else if newPoolLimit d count < 0 ∨ newPoolLimit d count > (d.MaxSliceCap : Int) then
          ({ a with poolLimit := newPoolLimit d count }, .panicked)
        else ({ a with pooledAttestations := [], poolLimit := newPoolLimit d count },
              .returned none) := by
  unfold resetPool
  rw [hs]
  dsimp only
  rw [hc]

/-- The four ways `resetPool` can go. -/
theorem resetPool_cases (d : Deps) (db2 : BeaconDB) (a : Service) :
    (∃ err, resetPool d db2 a = (a, .returned (some err)))
    ∨ resetPool d db2 a = (a, .panicked)
    ∨ (∃ state count, db2.HeadState = .ok state
        ∧ d.ActiveValidatorCount state (d.CurrentEpoch state) = .ok count
        ∧ (newPoolLimit d count < 0 ∨ newPoolLimit d count > (d.MaxSliceCap : Int))
        ∧ resetPool d db2 a = ({ a with poolLimit := newPoolLimit d count }, .panicked))
    ∨ (∃ state count, db2.HeadState = .ok state
        ∧ d.ActiveValidatorCount state (d.CurrentEpoch state) = .ok count
        ∧ (0 ≤ newPoolLimit d count ∧ newPoolLimit d count ≤ (d.MaxSliceCap : Int))
        ∧ resetPool d db2 a
          = ({ a with pooledAttestations := [], poolLimit := newPoolLimit d count },
             .returned none)) := by
  cases hs : db2.HeadState with
  | error msg => exact Or.inl ⟨_, resetPool_head_error d db2 a msg hs⟩
  | ok state =>
    cases hc : d.ActiveValidatorCount state (d.CurrentEpoch state) with
    | error msg => exact Or.inl ⟨_, resetPool_count_error d db2 a state msg hs hc⟩
    | ok count =>
      rw [resetPool_count d db2 a state count hs hc]
      by_cases hz : d.SlotsPerEpoch % 2 ^ 64 = 0
      · rw [if_pos hz]
        exact Or.inr (Or.inl rfl)
      · rw [if_neg hz]
        by_cases hneg : newPoolLimit d count < 0 ∨ newPoolLimit d count > (d.MaxSliceCap : Int)
        · rw [if_pos hneg]
          exact Or.inr (Or.inr (Or.inl ⟨state, count, rfl, hc, hneg, rfl⟩))
        · rw [if_neg hneg]
          exact Or.inr (Or.inr (Or.inr ⟨state, count, rfl, hc, by omega, rfl⟩))

theorem resetPool_store (d : Deps) (db2 : BeaconDB) (a : Service) :
    (resetPool d db2 a).1.store = a.store := by
  rcases resetPool_cases d db2 a with ⟨_, e⟩ | e | ⟨_, _, _, _, _, e⟩ | ⟨_, _, _, _, _, e⟩ <;>
    rw [e]

/-- When `resetPool` returns nil the pool is empty and the limit is not negative. -/
theorem resetPool_returned_nil (d : Deps) (db2 : BeaconDB) (a : Service)
    (h : (resetPool d db2 a).2 = .returned none) :
    (resetPool d db2 a).1.pooledAttestations = [] ∧ 0 ≤ (resetPool d db2 a).1.poolLimit := by
  rcases resetPool_cases d db2 a with ⟨_, e⟩ | e | ⟨_, _, _, _, _, e⟩ | ⟨_, _, _, _, h0, e⟩
  · rw [e] at h
    simp at h
  · rw [e] at h
    simp at h
  · rw [e] at h
    simp at h
  · rw [e]
    exact ⟨rfl, h0.1⟩

/-- When `resetPool` returns an error the service is as it was. -/
theorem resetPool_returned_error (d : Deps) (db2 : BeaconDB) (a : Service) (err : Error)
    (h : (resetPool d db2 a).2 = .returned (some err)) :
    (resetPool d db2 a).1 = a := by
  rcases resetPool_cases d db2 a with ⟨_, e⟩ | e | ⟨_, _, _, _, _, e⟩ | ⟨_, _, _, _, _, e⟩
  · rw [e]
  · rw [e]
  · rw [e] at h
    simp at h
  · rw [e] at h
    simp at h

/-- The new limit and the empty pool, when the count is read, seven times the per-slot
count fits an `int` and the new limit is a capacity the allocator grants. -/
theorem resetPool_of_fitting (d : Deps) (db2 : BeaconDB) (a : Service) (state : BeaconState)
    (count : Nat) (hs : db2.HeadState = .ok state)
    (hc : d.ActiveValidatorCount state (d.CurrentEpoch state) = .ok count)
    (hspe : 0 < d.SlotsPerEpoch) (hspe2 : d.SlotsPerEpoch < 2 ^ 64) (hcount : count < 2 ^ 64)
    (hbound : count / d.SlotsPerEpoch * 7 < 2 ^ 63)
    (hcap : max 1 (count / d.SlotsPerEpoch * 7 / 10) ≤ d.MaxSliceCap) :
    resetPool d db2 a
      = ({ a with
            pooledAttestations := []
            poolLimit := max 1 ((count / d.SlotsPerEpoch * 7 / 10 : Nat) : Int) },
         .returned none) := by
  have hl := newPoolLimit_of_fitting d count hspe2 hcount hbound
  have hcap2 : max (1 : Int) ((count / d.SlotsPerEpoch * 7 / 10 : Nat) : Int)
      ≤ (d.MaxSliceCap : Int) := by
    have := Nat.le_max_left 1 (count / d.SlotsPerEpoch * 7 / 10)
    have := Nat.le_max_right 1 (count / d.SlotsPerEpoch * 7 / 10)
    apply max_le <;> omega
  have hpos := le_max_left (1 : Int) ((count / d.SlotsPerEpoch * 7 / 10 : Nat) : Int)
  rw [resetPool_count d db2 a state count hs hc, Nat.mod_eq_of_lt hspe2, if_neg (by omega), hl,
    if_neg (by omega)]

/-! ## What the batch update leaves alone -/

theorem batchLoop_frame (d : Deps) (beaconState : BeaconState) :
    ∀ (atts : List Attestation) (a : Service),
    (batchLoop d beaconState atts a).1.pooledAttestations = a.pooledAttestations
      ∧ (batchLoop d beaconState atts a).1.poolLimit = a.poolLimit
  | [], a => ⟨rfl, rfl⟩
  | attestation :: rest, a => by
    have h1 := updateAttestation_frame d a beaconState attestation
    rcases hu : updateAttestation d a beaconState attestation with ⟨a2, o⟩
    rw [hu] at h1
    cases o with
    | returned r =>
      rw [batchLoop_cons_returned d beaconState attestation rest a a2 r hu]
      have h2 := batchLoop_frame d beaconState rest a2
      exact ⟨h2.1.trans h1.1, h2.2.trans h1.2⟩
    | panicked =>
      rw [batchLoop_cons_panicked d beaconState attestation rest a a2 hu]
      exact h1
    | blocked =>
      rw [batchLoop_cons_blocked d beaconState attestation rest a a2 hu]
      exact h1

theorem BatchUpdateLatestAttestation_frame (d : Deps) (db : BeaconDB) (a : Service)
    (attestations : Option (List Attestation)) :
    (BatchUpdateLatestAttestation d db a attestations).1.pooledAttestations
        = a.pooledAttestations
      ∧ (BatchUpdateLatestAttestation d db a attestations).1.poolLimit = a.poolLimit := by
  unfold BatchUpdateLatestAttestation
  split
  · exact ⟨rfl, rfl⟩
  · split
    · exact ⟨rfl, rfl⟩
    · exact batchLoop_frame d _ _ a

theorem BatchUpdateLatestAttestation_keeps_present (d : Deps) (db : BeaconDB) (a : Service)
    (attestations : Option (List Attestation)) (k : Bytes) (hk : a.store.m k ≠ none) :
    (BatchUpdateLatestAttestation d db a attestations).1.store.m k = a.store.m k := by
  unfold BatchUpdateLatestAttestation
  split
  · rfl
  · split
    · rfl
    · exact batchLoop_keeps_present d _ k _ a hk

/-! ## One ingestion step -/

/-- The service with the new attestation appended to the pending ones (line 147). -/
theorem handleAttestationTraced_no_flush (d : Deps) (db db2 : BeaconDB) (a : Service)
    (attestation : Attestation)
    (h : ¬ (((a.pooledAttestations ++ [attestation]).length : Int) > a.poolLimit)) :
    handleAttestationTraced d db db2 a attestation
      = (({ a with pooledAttestations := a.pooledAttestations ++ [attestation] },
          .returned none), []) := by
  unfold handleAttestationTraced
  dsimp only
  rw [if_neg h]

theorem handleAttestationTraced_flush (d : Deps) (db db2 : BeaconDB) (a : Service)
    (attestation : Attestation)
    (h : ((a.pooledAttestations ++ [attestation]).length : Int) > a.poolLimit) :
    handleAttestationTraced d db db2 a attestation
      = (match BatchUpdateLatestAttestation d db
            { a with pooledAttestations := a.pooledAttestations ++ [attestation] }
            (some (a.pooledAttestations ++ [attestation])) with
          | (a, .panicked) => (a, .panicked)
          | (a, .blocked) => (a, .blocked)
          | (a, .returned (some err)) => (a, .returned (some err))
          | (a, .returned none) => resetPool d db2 a,
         [a.pooledAttestations ++ [attestation]]) := by
  unfold handleAttestationTraced
  dsimp only
  rw [if_pos h]

/-- A step that flushes: what the batch update returned decides how it goes on. -/
theorem handleAttestation_flush_cases (d : Deps) (db db2 : BeaconDB) (a : Service)
    (attestation : Attestation)
    (h : ((a.pooledAttestations ++ [attestation]).length : Int) > a.poolLimit) :
    (handleAttestation d db db2 a attestation
        = BatchUpdateLatestAttestation d db
            { a with pooledAttestations := a.pooledAttestations ++ [attestation] }
            (some (a.pooledAttestations ++ [attestation]))
      ∧ (BatchUpdateLatestAttestation d db
            { a with pooledAttestations := a.pooledAttestations ++ [attestation] }
            (some (a.pooledAttestations ++ [attestation]))).2 ≠ .returned none)
    ∨ (handleAttestation d db db2 a attestation
        = resetPool d db2 (BatchUpdateLatestAttestation d db
            { a with pooledAttestations := a.pooledAttestations ++ [attestation] }
            (some (a.pooledAttestations ++ [attestation]))).1
      ∧ (BatchUpdateLatestAttestation d db
            { a with pooledAttestations := a.pooledAttestations ++ [attestation] }
            (some (a.pooledAttestations ++ [attestation]))).2 = .returned none) := by
  unfold handleAttestation
  rw [handleAttestationTraced_flush d db db2 a attestation h]
  rcases hb : BatchUpdateLatestAttestation d db
      { a with pooledAttestations := a.pooledAttestations ++ [attestation] }
      (some (a.pooledAttestations ++ [attestation])) with ⟨a2, o⟩
  cases o with
  | panicked => exact Or.inl ⟨rfl, by simp⟩
  | blocked => exact Or.inl ⟨rfl, by simp⟩
  | returned r =>
    cases r with
    | none => exact Or.inr ⟨rfl, rfl⟩
    | some err => exact Or.inl ⟨rfl, by simp⟩

theorem handleAttestation_no_flush (d : Deps) (db db2 : BeaconDB) (a : Service)
    (attestation : Attestation)
    (h : ¬ (((a.pooledAttestations ++ [attestation]).length : Int) > a.poolLimit)) :
    handleAttestation d db db2 a attestation
      = ({ a with pooledAttestations := a.pooledAttestations ++ [attestation] },
          .returned none) := by
  unfold handleAttestation
  rw [handleAttestationTraced_no_flush d db db2 a attestation h]

theorem handleAttestation_keeps_present (d : Deps) (db db2 : BeaconDB) (a : Service)
    (attestation : Attestation) (k : Bytes) (hk : a.store.m k ≠ none) :
    (handleAttestation d db db2 a attestation).1.store.m k = a.store.m k := by
  by_cases h : ((a.pooledAttestations ++ [attestation]).length : Int) > a.poolLimit
  · have hb := BatchUpdateLatestAttestation_keeps_present d db
      { a with pooledAttestations := a.pooledAttestations ++ [attestation] }
      (some (a.pooledAttestations ++ [attestation])) k hk
    rcases handleAttestation_flush_cases d db db2 a attestation h with ⟨e, _⟩ | ⟨e, _⟩
    · rw [e]
      exact hb
    · rw [e, resetPool_store]
      exact hb
  · rw [handleAttestation_no_flush d db db2 a attestation h]

/-- A step keeps the limit at 1 or more when the counts it may read fit. -/
theorem handleAttestation_limit (d : Deps) (db db2 : BeaconDB) (a : Service)
    (attestation : Attestation) (hlimit : 1 ≤ a.poolLimit)
    (hspe2 : d.SlotsPerEpoch < 2 ^ 64)
    (hfit : ∀ state count, db2.HeadState = .ok state →
      d.ActiveValidatorCount state (d.CurrentEpoch state) = .ok count →
      count < 2 ^ 64 ∧ count / d.SlotsPerEpoch * 7 < 2 ^ 63) :
    1 ≤ (handleAttestation d db db2 a attestation).1.poolLimit := by
  by_cases h : ((a.pooledAttestations ++ [attestation]).length : Int) > a.poolLimit
  · have hb := (BatchUpdateLatestAttestation_frame d db
      { a with pooledAttestations := a.pooledAttestations ++ [attestation] }
      (some (a.pooledAttestations ++ [attestation]))).2
    rcases handleAttestation_flush_cases d db db2 a attestation h with ⟨e, _⟩ | ⟨e, _⟩
    · rw [e, hb]
      exact hlimit
    · rw [e]
      rcases resetPool_cases d db2 (BatchUpdateLatestAttestation d db
          { a with pooledAttestations := a.pooledAttestations ++ [attestation] }
          (some (a.pooledAttestations ++ [attestation]))).1 with
        ⟨_, e2⟩ | e2 | ⟨state, count, hs, hc, _, e3⟩ | ⟨state, count, hs, hc, _, e2⟩
      · rw [e2, hb]
        exact hlimit
      · rw [e2, hb]
        exact hlimit
      · have hf := hfit state count hs hc
        rw [e3]
        show 1 ≤ newPoolLimit d count
        rw [newPoolLimit_of_fitting d count hspe2 hf.1 hf.2]
        exact le_max_left _ _
      · rw [e2]
        have hf := hfit state count hs hc
        show 1 ≤ newPoolLimit d count
        rw [newPoolLimit_of_fitting d count hspe2 hf.1 hf.2]
        exact le_max_left _ _
  · rw [handleAttestation_no_flush d db db2 a attestation h]
    exact hlimit

/-! ## The ingestion loop -/

theorem attestationPool_cons (d : Deps) (db db2 : BeaconDB) (attestation : Attestation)
    (rest : List (BeaconDB × BeaconDB × Attestation)) (a : Service) :
    attestationPool d ((db, db2, attestation) :: rest) a
      = match handleAttestationTraced d db db2 a attestation with
        | ((a2, .blocked), calls) => (a2, calls)
        | ((a2, .panicked), calls) =>
          ((attestationPool d rest a2).1, calls ++ (attestationPool d rest a2).2)
        | ((a2, .returned _), calls) =>
          ((attestationPool d rest a2).1, calls ++ (attestationPool d rest a2).2) := by
  conv => lhs; unfold attestationPool

/-- The calls of a run start with the calls of its first step. -/
theorem attestationPool_calls_cons (d : Deps) (db db2 : BeaconDB) (attestation : Attestation)
    (rest : List (BeaconDB × BeaconDB × Attestation)) (a : Service) :
    ∃ more, (attestationPool d ((db, db2, attestation) :: rest) a).2
      = (handleAttestationTraced d db db2 a attestation).2 ++ more
      ∧ (rest = [] → more = []) := by
  rw [attestationPool_cons]
  rcases hh : handleAttestationTraced d db db2 a attestation with ⟨⟨a2, o⟩, calls⟩
  cases o with
  | blocked => exact ⟨[], by simp, fun _ => rfl⟩
  | panicked =>
    refine ⟨(attestationPool d rest a2).2, rfl, ?_⟩
    intro hr
    subst hr
    rfl
  | returned r =>
    refine ⟨(attestationPool d rest a2).2, rfl, ?_⟩
    intro hr
    subst hr
    rfl

/-- Messages that fit under the limit are appended and trigger no call. -/
theorem attestationPool_no_flush (d : Deps) :
    ∀ (msgs : List (BeaconDB × BeaconDB × Attestation)) (a : Service),
    ((a.pooledAttestations.length + msgs.length : Nat) : Int) ≤ a.poolLimit →
    attestationPool d msgs a
      = ({ a with pooledAttestations := a.pooledAttestations ++ msgs.map (fun m => m.2.2) }, [])
  | [], a, _ => by simp [attestationPool]
  | (db, db2, attestation) :: rest, a, h => by
    have hno : ¬ (((a.pooledAttestations ++ [attestation]).length : Int) > a.poolLimit) := by
      simp only [List.length_append, List.length_cons, List.length_nil] at h ⊢
      omega
    rw [attestationPool_cons, handleAttestationTraced_no_flush d db db2 a attestation hno]
    dsimp only
    rw [attestationPool_no_flush d rest
      { a with pooledAttestations := a.pooledAttestations ++ [attestation] }
      (by
        simp only [List.length_append, List.length_cons, List.length_nil] at h ⊢
        omega)]
    simp

/-- From an empty pool the message that exceeds the limit triggers the one call, with all
the messages in the order they came. -/
theorem attestationPool_one_flush (d : Deps) (db db2 : BeaconDB) (last : Attestation) :
    ∀ (msgs : List (BeaconDB × BeaconDB × Attestation)) (a : Service),
    ((a.pooledAttestations.length + msgs.length : Nat) : Int) = a.poolLimit →
    (attestationPool d (msgs ++ [(db, db2, last)]) a).2
      = [a.pooledAttestations ++ msgs.map (fun m => m.2.2) ++ [last]]
  | [], a, h => by
    have hfl : ((a.pooledAttestations ++ [last]).length : Int) > a.poolLimit := by
      simp only [List.length_append, List.length_cons, List.length_nil] at h ⊢
      omega
    obtain ⟨more, hm, hnil⟩ := attestationPool_calls_cons d db db2 last [] a
    simp only [List.nil_append, List.map_nil, List.append_nil]
    rw [hm, hnil rfl, handleAttestationTraced_flush d db db2 a last hfl]
    simp
  | (db1, db3, attestation) :: rest, a, h => by
    have hno : ¬ (((a.pooledAttestations ++ [attestation]).length : Int) > a.poolLimit) := by
      simp only [List.length_append, List.length_cons, List.length_nil] at h ⊢
      omega
    simp only [List.cons_append]
    rw [attestationPool_cons, handleAttestationTraced_no_flush d db1 db3 a attestation hno]
    dsimp only
    rw [attestationPool_one_flush d db db2 last rest
      { a with pooledAttestations := a.pooledAttestations ++ [attestation] }
      (by
        simp only [List.length_append, List.length_cons, List.length_nil] at h ⊢
        omega)]
    simp

/-- Over a run of the loop the limit stays at 1 or more when the counts read fit. -/
theorem attestationPool_limit (d : Deps) (hspe2 : d.SlotsPerEpoch < 2 ^ 64) :
    ∀ (msgs : List (BeaconDB × BeaconDB × Attestation)) (a : Service), 1 ≤ a.poolLimit →
    (∀ m ∈ msgs, ∀ state count, m.2.1.HeadState = .ok state →
      d.ActiveValidatorCount state (d.CurrentEpoch state) = .ok count →
      count < 2 ^ 64 ∧ count / d.SlotsPerEpoch * 7 < 2 ^ 63) →
    1 ≤ (attestationPool d msgs a).1.poolLimit
  | [], a, h, _ => h
  | (db, db2, attestation) :: rest, a, h, hfit => by
    have h1 := handleAttestation_limit d db db2 a attestation h hspe2
      (hfit (db, db2, attestation) (List.mem_cons_self _ _))
    have hrest : ∀ m ∈ rest, ∀ state count, m.2.1.HeadState = .ok state →
        d.ActiveValidatorCount state (d.CurrentEpoch state) = .ok count →
        count < 2 ^ 64 ∧ count / d.SlotsPerEpoch * 7 < 2 ^ 63 :=
      fun m hm => hfit m (List.mem_cons_of_mem _ hm)
    unfold handleAttestation at h1
    rw [attestationPool_cons]
    rcases hh : handleAttestationTraced d db db2 a attestation with ⟨⟨a2, o⟩, calls⟩
    rw [hh] at h1
    cases o with
    | blocked => exact h1
    | panicked => exact attestationPool_limit d hspe2 rest a2 h1 hrest
    | returned r => exact attestationPool_limit d hspe2 rest a2 h1 hrest

/-! ## The adapter and the insertion leave the entries in place -/

theorem LatestAttestationTarget_service (d : Deps) (db : BeaconDB) (a : Service)
    (beaconState : BeaconState) (index : Nat) :
    (LatestAttestationTarget d db a beaconState index).1 = a := by
  by_cases h : index < beaconState.Validators.length
  · cases hw : a.store.mu.writer with
    | true => rw [LatestAttestationTarget_writer_held d db a beaconState index h hw]
    | false => rw [LatestAttestationTarget_in_range d db a beaconState index h hw]
  · rw [LatestAttestationTarget_out_of_range d db a beaconState index (Nat.le_of_not_lt h)]

theorem InsertAttestationIntoStore_of_free (a : Service) (pubkey : Bytes)
    (att : Option Attestation) (hfree : a.store.mu = { writer := false, readers := 0 }) :
    InsertAttestationIntoStore a pubkey att
      = ({ a with store := { a.store with m := mapSet a.store.m pubkey att } },
         .returned ()) := by
  unfold InsertAttestationIntoStore
  simp only [hfree, RWMutex.Lock, RWMutex.Unlock]
  simp

theorem InsertAttestationIntoStore_of_held (a : Service) (pubkey : Bytes)
    (att : Option Attestation) (hl : a.store.mu.Lock = none) :
    InsertAttestationIntoStore a pubkey att = (a, .blocked) := by
  unfold InsertAttestationIntoStore
  rw [hl]

theorem InsertAttestationIntoStore_keeps_present (a : Service) (pubkey : Bytes)
    (att : Option Attestation) (k : Bytes) (hk : a.store.m k ≠ none) :
    (InsertAttestationIntoStore a pubkey att).1.store.m k ≠ none := by
  unfold InsertAttestationIntoStore
  cases hl : a.store.mu.Lock with
  | none => exact hk
  | some mu =>
    dsimp only
    split
    · show mapSet a.store.m pubkey att k ≠ none
      unfold mapSet
      split
      · simp
      · exact hk
    · show mapSet a.store.m pubkey att k ≠ none
      unfold mapSet
      split
      · simp
      · exact hk

/-! ## Where the loop stops -/

/-- The ways one iteration can go, whatever the number of iterations left. -/
theorem updateLoop_step_shape (d : Deps) (beaconState : BeaconState) (attestation : Attestation)
    (committee : List Nat) (i defers : Nat) (a : Service) :
    (∀ n, updateLoop d beaconState attestation committee (n + 1) i defers a
        = updateLoop d beaconState attestation committee n (i + 1) defers a)
    ∨ (∃ r, ∀ n, updateLoop d beaconState attestation committee (n + 1) i defers a = r)
    ∨ ∃ a2, ∀ n, updateLoop d beaconState attestation committee (n + 1) i defers a
        = updateLoop d beaconState attestation committee n (i + 1) (defers + 1) a2 := by
  by_cases hbit : attestation.AggregationBits.BitAt i = true
  · by_cases hlen : committee.length ≤ i
    · exact Or.inr (Or.inl ⟨_, fun n =>
        updateLoop_malformed d beaconState attestation committee n i defers a hbit
          (Or.inl hlen)⟩)
    · have hi : i < committee.length := Nat.lt_of_not_ge hlen
      by_cases hge : (beaconState.Validators.length : Int) ≤ toInt committee[i]
      · exact Or.inr (Or.inl ⟨_, fun n =>
          updateLoop_malformed d beaconState attestation committee n i defers a hbit
            (Or.inr ⟨committee[i], List.getElem?_eq_getElem hi, hge⟩)⟩)
      · cases hv : beaconState.Validators[committee[i]]? with
        | none =>
          refine Or.inr (Or.inl ⟨leave defers a .panicked, fun n => ?_⟩)
          rw [updateLoop_reached d beaconState attestation committee n i defers a hbit hi hge, hv]
        | some validator =>
          cases hl : a.store.mu.Lock with
          | none =>
            refine Or.inr (Or.inl ⟨(a, .blocked), fun n => ?_⟩)
            rw [updateLoop_reached d beaconState attestation committee n i defers a hbit hi hge,
              hv, hl]
          | some mu =>
            refine Or.inr (Or.inr ⟨{ a with store :=
              { mu := mu
                m := mergeEntry d a.store.m (d.ToBytes48 validator.PublicKey) attestation } },
              fun n => ?_⟩)
            rw [updateLoop_reached d beaconState attestation committee n i defers a hbit hi hge,
              hv, hl]
  · have hb : attestation.AggregationBits.BitAt i = false := by
      cases h : attestation.AggregationBits.BitAt i
      · rfl
      · exact absurd h hbit
    exact Or.inl (fun n => updateLoop_clear d beaconState attestation committee n i defers a hb)

/-- At a malformed set bit the loop returns: the iterations from that bit on add nothing to
the iterations before it. -/
theorem updateLoop_stops_at_malformed (d : Deps) (beaconState : BeaconState)
    (attestation : Attestation) (committee : List Nat) (p r : Nat)
    (hbit : attestation.AggregationBits.BitAt p = true)
    (hbad : committee.length ≤ p ∨
      ∃ c, committee[p]? = some c ∧ (beaconState.Validators.length : Int) ≤ toInt c) :
    ∀ (k j defers : Nat) (a : Service), j + k = p →
    updateLoop d beaconState attestation committee (k + (r + 1)) j defers a
      = updateLoop d beaconState attestation committee k j defers a
  | 0, j, defers, a, h => by
    have hj : j = p := by omega
    subst hj
    simp only [Nat.zero_add]
    rw [updateLoop_malformed d beaconState attestation committee r j defers a hbit hbad]
    rfl
  | k + 1, j, defers, a, h => by
    have e : k + 1 + (r + 1) = (k + (r + 1)) + 1 := by omega
    rw [e]
    rcases updateLoop_step_shape d beaconState attestation committee j defers a with
      hs | ⟨res, hs⟩ | ⟨a2, hs⟩
    · rw [hs, hs]
      exact updateLoop_stops_at_malformed d beaconState attestation committee p r hbit hbad
        k (j + 1) defers a (by omega)
    · rw [hs, hs]
    · rw [hs, hs]
      exact updateLoop_stops_at_malformed d beaconState attestation committee p r hbit hbad
        k (j + 1) (defers + 1) a2 (by omega)

/-- Two valid set bits: the lock taken for the first is still held when the second asks for
it, and the call waits for ever. -/
theorem updateLoop_two_valid_bits (d : Deps) (beaconState : BeaconState)
    (attestation : Attestation) (committee : List Nat) (a : Service) (i j : Nat)
    (hij : i < j)
    (hclear : ∀ k, k < j → k ≠ i → attestation.AggregationBits.BitAt k = false)
    (hbi : attestation.AggregationBits.BitAt i = true)
    (hbj : attestation.AggregationBits.BitAt j = true)
    (hi : i < committee.length) (hvi : committee[i] < beaconState.Validators.length)
    (hj : j < committee.length) (hvj : committee[j] < beaconState.Validators.length)
    (hfree : a.store.mu = { writer := false, readers := 0 }) :
    updateLoop d beaconState attestation committee attestation.AggregationBits.Len 0 0 a
      = ({ a with store :=
            { mu := { writer := true, readers := 0 }
              m := mergeEntry d a.store.m
                (d.ToBytes48 beaconState.Validators[committee[i]].PublicKey) attestation } },
         .blocked) := by
  have hlen := BitAt_lt_Len _ j hbj
  obtain ⟨r, hr⟩ : ∃ r, attestation.AggregationBits.Len = i + ((j - i - 1) + (r + 1) + 1) :=
    ⟨attestation.AggregationBits.Len - j - 1, by omega⟩
  rw [hr, updateLoop_skip d beaconState attestation committee i _ 0 0 a
    (fun k _ h2 => hclear k (by omega) (by omega))]
  simp only [Nat.zero_add]
  rw [updateLoop_valid d beaconState attestation committee _ i 0 a hbi hi hvi hfree,
    updateLoop_skip d beaconState attestation committee (j - i - 1) (r + 1) (i + 1) (0 + 1) _
      (fun k h1 h2 => hclear k (by omega) (by omega))]
  have ej : i + 1 + (j - i - 1) = j := by omega
  rw [ej]
  have hnot : ¬ (beaconState.Validators.length : Int) ≤ toInt committee[j] := by
    have := toInt_le committee[j]
    omega
  rw [updateLoop_reached d beaconState attestation committee r j (0 + 1) _ hbj hj hnot,
    List.getElem?_eq_getElem hvj]
  rfl

/-! ## The claims C11 to C19 -/

/-- The ways `UpdateLatestAttestation` ends: it returns the error to its caller when the
head state cannot be read and when the committee lookup for the attestation's shard fails,
with the service as it was; when neither fails it never ends with an error, and it returns
nil for an attestation with at most one set bit (lock free at the start, committee values
fitting an `int`). -/
theorem UpdateLatestAttestation_ends (d : Deps) (db : BeaconDB) (a : Service)
    (att : Attestation) :
    (∀ msg, db.HeadState = .error msg →
        UpdateLatestAttestation d db a att = (a, .returned (some (.collaborator msg))))
    ∧ (∀ state msg, db.HeadState = .ok state →
        d.CrosslinkCommittee state (d.CurrentEpoch state) att.Data.Crosslink.Shard
          = .error msg →
        UpdateLatestAttestation d db a att = (a, .returned (some (.collaborator msg))))
    ∧ (∀ state committee, db.HeadState = .ok state →
        d.CrosslinkCommittee state (d.CurrentEpoch state) att.Data.Crosslink.Shard
          = .ok committee →
        (∀ err, (UpdateLatestAttestation d db a att).2 ≠ .returned (some err))
        ∧ (a.store.mu = { writer := false, readers := 0 } →
            List.count true att.AggregationBits ≤ 1 →
            (∀ c ∈ committee, c < 2 ^ 63) →
            (UpdateLatestAttestation d db a att).2 = .returned none)) := by
  refine ⟨?_, ?_, ?_⟩
  · intro msg hs
    unfold UpdateLatestAttestation
    rw [hs]
  · intro state msg hs hc
    unfold UpdateLatestAttestation
    rw [hs]
    exact updateAttestation_committee_error d a state att msg hc
  · intro state committee hs hc
    have hu : UpdateLatestAttestation d db a att
        = updateLoop d state att committee att.AggregationBits.Len 0 0 a := by
      unfold UpdateLatestAttestation
      rw [hs]
      exact updateAttestation_committee_ok d a state att committee hc
    rw [hu]
    refine ⟨?_, ?_⟩
    · intro err
      rcases updateLoop_outcome d state att committee att.AggregationBits.Len 0 0 a with
        h | h | h <;> rw [h] <;> simp
    · intro hfree hone hsmall
      exact (updateLoop_returns d state att committee a hone hsmall hfree).1

/-- C11 (code bug): the head state is read and the committee of shard 0 is `[0, 1, 2, 3]`,
so neither lookup fails; the attestation has the valid bits 1 and 3 set. The call of
`UpdateLatestAttestation` returns nothing, neither nil nor an error: it waits for the write
lock it took for bit 1, and the lock stays with the writer. With bit 1 alone the same call
returns nil. -/
theorem c11_update_with_two_bits_never_returns :
    (UpdateLatestAttestation sampleDeps sampleDB NewAttestationService
        (sampleAtt [false, true, false, true] 5 0)).2 = .blocked
    ∧ (UpdateLatestAttestation sampleDeps sampleDB NewAttestationService
        (sampleAtt [false, true, false, true] 5 0)).1.store.mu
        = { writer := true, readers := 0 }
    ∧ (UpdateLatestAttestation sampleDeps sampleDB NewAttestationService
        (sampleAtt [false, true] 5 0)).2 = .returned none := by
  decide

/-- C12, the claim as stated fails for counts whose seventy per cent leave the `int` range
or the capacity a slice can have. With 8 slots an epoch and `2 ^ 64 - 1` active validators
the batch update returns nil, the product wraps to a negative number, the limit becomes
-230584300921369395, the allocation of the new pool panics and the two pending
attestations stay. With 1 slot an epoch and 2635249153387078803 active validators the step
returns nil with an empty pool and the limit 1, where the formula gives
1844674407370955162. With 8 slots an epoch and `2 ^ 52` active validators nothing wraps and
the limit is set to 394064967394918 as the formula says, but that is more than the
`2 ^ 45` pointers a slice can hold: the allocation panics and the two pending attestations
stay. -/
theorem c12_counterexample :
    (BatchUpdateLatestAttestation maxCountDeps sampleDB
        { (handleAttestation maxCountDeps sampleDB sampleDB NewAttestationService
            (sampleAtt [false, true] 5 0)).1 with
          pooledAttestations := [sampleAtt [false, true] 5 0, sampleAtt [false, false, true] 5 0] }
        (some [sampleAtt [false, true] 5 0, sampleAtt [false, false, true] 5 0])).2
      = .returned none
    ∧ (handleAttestation maxCountDeps sampleDB sampleDB
        (handleAttestation maxCountDeps sampleDB sampleDB NewAttestationService
          (sampleAtt [false, true] 5 0)).1 (sampleAtt [false, false, true] 5 0)).2 = .panicked
    ∧ (handleAttestation maxCountDeps sampleDB sampleDB
        (handleAttestation maxCountDeps sampleDB sampleDB NewAttestationService
          (sampleAtt [false, true] 5 0)).1 (sampleAtt [false, false, true] 5 0)).1.poolLimit
        = -230584300921369395
    ∧ (handleAttestation maxCountDeps sampleDB sampleDB
        (handleAttestation maxCountDeps sampleDB sampleDB NewAttestationService
          (sampleAtt [false, true] 5 0)).1
        (sampleAtt [false, false, true] 5 0)).1.pooledAttestations.length = 2
    ∧ max 1 (((2 ^ 64 - 1) / 8 * 7 / 10 : Nat) : Int) = 1614090106449585765
    ∧ (handleAttestation wrapCountDeps sampleDB sampleDB
        (handleAttestation wrapCountDeps sampleDB sampleDB NewAttestationService
          (sampleAtt [false, true] 5 0)).1 (sampleAtt [false, false, true] 5 0)).2
        = .returned none
    ∧ (handleAttestation wrapCountDeps sampleDB sampleDB
        (handleAttestation wrapCountDeps sampleDB sampleDB NewAttestationService
          (sampleAtt [false, true] 5 0)).1 (sampleAtt [false, false, true] 5 0)).1.poolLimit = 1
    ∧ (handleAttestation wrapCountDeps sampleDB sampleDB
        (handleAttestation wrapCountDeps sampleDB sampleDB NewAttestationService
          (sampleAtt [false, true] 5 0)).1
        (sampleAtt [false, false, true] 5 0)).1.pooledAttestations = []
    ∧ max 1 ((2635249153387078803 / 1 * 7 / 10 : Nat) : Int) = 1844674407370955162
    ∧ 2 ^ 52 / 8 * 7 < 2 ^ 63
    ∧ (handleAttestation largeCountDeps sampleDB sampleDB
        (handleAttestation largeCountDeps sampleDB sampleDB NewAttestationService
          (sampleAtt [false, true] 5 0)).1 (sampleAtt [false, false, true] 5 0)).2 = .panicked
    ∧ (handleAttestation largeCountDeps sampleDB sampleDB
        (handleAttestation largeCountDeps sampleDB sampleDB NewAttestationService
          (sampleAtt [false, true] 5 0)).1 (sampleAtt [false, false, true] 5 0)).1.poolLimit
        = 394064967394918
    ∧ (handleAttestation largeCountDeps sampleDB sampleDB
        (handleAttestation largeCountDeps sampleDB sampleDB NewAttestationService
          (sampleAtt [false, true] 5 0)).1
        (sampleAtt [false, false, true] 5 0)).1.pooledAttestations.length = 2
    ∧ largeCountDeps.MaxSliceCap < 394064967394918 := by
  decide

/-- C12, amended: after an ingestion step that flushes (the pending attestations with the
new one are more than the limit), whose batch update returns nil and whose head state and
active validator count are read, with `SLOTS_PER_EPOCH` not 0,
`(count / SLOTS_PER_EPOCH) * 7` below `2 ^ 63` and
`max(1, ((count / SLOTS_PER_EPOCH) * 7) / 10)` no more than the largest capacity a slice of
attestation pointers can be made with, the step returns nil, the limit is
`max(1, ((count / SLOTS_PER_EPOCH) * 7) / 10)` in integer division and the pool is empty. -/
theorem c12_pool_limit_after_flush (d : Deps) (db db2 : BeaconDB) (a : Service)
    (att : Attestation) (state : BeaconState) (count : Nat)
    (hflush : ((a.pooledAttestations ++ [att]).length : Int) > a.poolLimit)
    (hbatch : (BatchUpdateLatestAttestation d db
        { a with pooledAttestations := a.pooledAttestations ++ [att] }
        (some (a.pooledAttestations ++ [att]))).2 = .returned none)
    (hs : db2.HeadState = .ok state)
    (hc : d.ActiveValidatorCount state (d.CurrentEpoch state) = .ok count)
    (hspe : 0 < d.SlotsPerEpoch) (hspe2 : d.SlotsPerEpoch < 2 ^ 64) (hcount : count < 2 ^ 64)
    (hbound : count / d.SlotsPerEpoch * 7 < 2 ^ 63)
    (hcap : max 1 (count / d.SlotsPerEpoch * 7 / 10) ≤ d.MaxSliceCap) :
    (handleAttestation d db db2 a att).2 = .returned none
    ∧ (handleAttestation d db db2 a att).1.poolLimit
        = max 1 ((count / d.SlotsPerEpoch * 7 / 10 : Nat) : Int)
    ∧ (handleAttestation d db db2 a att).1.pooledAttestations = [] := by
  rcases handleAttestation_flush_cases d db db2 a att hflush with ⟨_, hne⟩ | ⟨e, _⟩
  · exact absurd hbatch hne
  · rw [e, resetPool_of_fitting d db2 _ state count hs hc hspe hspe2 hcount hbound hcap]
    exact ⟨rfl, rfl, rfl⟩

/-- C12 at an instance: 64 active validators and 8 slots an epoch give the limit 5. -/
theorem c12_witness :
    (handleAttestation count64Deps sampleDB sampleDB
        (handleAttestation count64Deps sampleDB sampleDB NewAttestationService
          (sampleAtt [false, true] 5 0)).1 (sampleAtt [false, false, true] 5 0)).2
      = .returned none
    ∧ (handleAttestation count64Deps sampleDB sampleDB
        (handleAttestation count64Deps sampleDB sampleDB NewAttestationService
          (sampleAtt [false, true] 5 0)).1 (sampleAtt [false, false, true] 5 0)).1.poolLimit = 5
    ∧ (handleAttestation count64Deps sampleDB sampleDB
        (handleAttestation count64Deps sampleDB sampleDB NewAttestationService
          (sampleAtt [false, true] 5 0)).1
        (sampleAtt [false, false, true] 5 0)).1.pooledAttestations = [] :=
  c12_pool_limit_after_flush count64Deps sampleDB sampleDB
    (handleAttestation count64Deps sampleDB sampleDB NewAttestationService
      (sampleAtt [false, true] 5 0)).1 (sampleAtt [false, false, true] 5 0) sampleState 64
    (by decide) (by decide) rfl rfl (by decide) (by decide) (by decide) (by decide) (by decide)

/-- C13, the claim as stated fails: with 8 slots an epoch and `2 ^ 64 - 1` active
validators, the step that flushes a new pool computes `7 * (2 ^ 61 - 1)` in `int`, which
wraps to a negative number; the limit is -230584300921369395 after the step, which is
not 0 and so is not raised to 1. -/
theorem c13_counterexample :
    NewAttestationService.poolLimit = 1
    ∧ (handleAttestation maxCountDeps sampleDB sampleDB NewAttestationService
        (sampleAtt [false, true] 5 0)).1.poolLimit = 1
    ∧ (handleAttestation maxCountDeps sampleDB sampleDB
        (handleAttestation maxCountDeps sampleDB sampleDB NewAttestationService
          (sampleAtt [false, true] 5 0)).1 (sampleAtt [false, false, true] 5 0)).1.poolLimit
        = -230584300921369395
    ∧ ¬ (1 ≤ (handleAttestation maxCountDeps sampleDB sampleDB
        (handleAttestation maxCountDeps sampleDB sampleDB NewAttestationService
          (sampleAtt [false, true] 5 0)).1
        (sampleAtt [false, false, true] 5 0)).1.poolLimit) := by
  decide

/-- C13, amended: the limit is 1 in a newly created pool, and every ingestion step on a
pool whose limit is 1 or more leaves it 1 or more, provided every active validator count
the step may read is a `uint64` with `(count / SLOTS_PER_EPOCH) * 7` below `2 ^ 63`; so it
is 1 or more after every run of the ingestion loop from a new pool under that proviso. -/
theorem c13_pool_limit_at_least_one (d : Deps) (db db2 : BeaconDB) (a : Service)
    (att : Attestation) (hlimit : 1 ≤ a.poolLimit) (hspe2 : d.SlotsPerEpoch < 2 ^ 64)
    (hfit : ∀ state count, db2.HeadState = .ok state →
      d.ActiveValidatorCount state (d.CurrentEpoch state) = .ok count →
      count < 2 ^ 64 ∧ count / d.SlotsPerEpoch * 7 < 2 ^ 63) :
    NewAttestationService.poolLimit = 1
    ∧ 1 ≤ (handleAttestation d db db2 a att).1.poolLimit
    ∧ (∀ msgs : List (BeaconDB × BeaconDB × Attestation),
        (∀ m ∈ msgs, ∀ state count, m.2.1.HeadState = .ok state →
          d.ActiveValidatorCount state (d.CurrentEpoch state) = .ok count →
          count < 2 ^ 64 ∧ count / d.SlotsPerEpoch * 7 < 2 ^ 63) →
        1 ≤ (attestationPool d msgs NewAttestationService).1.poolLimit) :=
  ⟨rfl, handleAttestation_limit d db db2 a att hlimit hspe2 hfit,
    fun msgs hm => attestationPool_limit d hspe2 msgs NewAttestationService (by decide) hm⟩

/-- The count of the fixture with 64 active validators fits. -/
theorem count64Deps_fits (state : BeaconState) (count : Nat)
    (h : count64Deps.ActiveValidatorCount state (count64Deps.CurrentEpoch state) = .ok count) :
    count < 2 ^ 64 ∧ count / count64Deps.SlotsPerEpoch * 7 < 2 ^ 63 := by
  simp only [count64Deps] at h
  injection h with h
  subst h
  decide

/-- C13 at an instance: the step that flushes with 64 active validators. -/
theorem c13_witness :
    1 ≤ (handleAttestation count64Deps sampleDB sampleDB
        (handleAttestation count64Deps sampleDB sampleDB NewAttestationService
          (sampleAtt [false, true] 5 0)).1 (sampleAtt [false, false, true] 5 0)).1.poolLimit :=
  (c13_pool_limit_at_least_one count64Deps sampleDB sampleDB
    (handleAttestation count64Deps sampleDB sampleDB NewAttestationService
      (sampleAtt [false, true] 5 0)).1 (sampleAtt [false, false, true] 5 0)
    (by decide) (by decide) (fun state count _ h => count64Deps_fits state count h)).2.1

/-- C14, the claim as stated fails: on a new pool (limit 1) three attestations come in
while the head state cannot be read. The second and the third step call the batch update,
which returns the error, and the step returns it before the pool is emptied: three
attestations are pending afterwards and the limit is still 1. -/
theorem c14_counterexample :
    (handleAttestation sampleDeps failingDB failingDB
        (handleAttestation sampleDeps failingDB failingDB
          (handleAttestation sampleDeps failingDB failingDB NewAttestationService
            (sampleAtt [false, true] 5 0)).1
          (sampleAtt [false, false, true] 5 0)).1
        (sampleAtt [true] 5 0)).2 = .returned (some (.collaborator "head state not found"))
    ∧ (handleAttestation sampleDeps failingDB failingDB
        (handleAttestation sampleDeps failingDB failingDB
          (handleAttestation sampleDeps failingDB failingDB NewAttestationService
            (sampleAtt [false, true] 5 0)).1
          (sampleAtt [false, false, true] 5 0)).1
        (sampleAtt [true] 5 0)).1.pooledAttestations.length = 3
    ∧ (handleAttestation sampleDeps failingDB failingDB
        (handleAttestation sampleDeps failingDB failingDB
          (handleAttestation sampleDeps failingDB failingDB NewAttestationService
            (sampleAtt [false, true] 5 0)).1
          (sampleAtt [false, false, true] 5 0)).1
        (sampleAtt [true] 5 0)).1.poolLimit = 1 := by
  decide

/-- C14, amended: immediately after every ingestion step that returns nil, on every pool,
the pending attestations are no more than the limit (so no more than the limit plus 1): a
step that does not flush leaves no more of them than the limit, and a step that flushes and
returns nil leaves none, with a limit that is not negative. A step that returns an error
leaves the pending attestations with the new one appended and the limit as it was. -/
theorem c14_pending_bound_after_step (d : Deps) (db db2 : BeaconDB) (a : Service)
    (att : Attestation) :
    ((handleAttestation d db db2 a att).2 = .returned none →
      ((handleAttestation d db db2 a att).1.pooledAttestations.length : Int)
          ≤ (handleAttestation d db db2 a att).1.poolLimit
        ∧ ((handleAttestation d db db2 a att).1.pooledAttestations.length : Int)
          ≤ (handleAttestation d db db2 a att).1.poolLimit + 1)
    ∧ (∀ err, (handleAttestation d db db2 a att).2 = .returned (some err) →
        (handleAttestation d db db2 a att).1.pooledAttestations = a.pooledAttestations ++ [att]
        ∧ (handleAttestation d db db2 a att).1.poolLimit = a.poolLimit) := by
  by_cases h : ((a.pooledAttestations ++ [att]).length : Int) > a.poolLimit
  · have hb := BatchUpdateLatestAttestation_frame d db
      { a with pooledAttestations := a.pooledAttestations ++ [att] }
      (some (a.pooledAttestations ++ [att]))
    rcases handleAttestation_flush_cases d db db2 a att h with ⟨e, hne⟩ | ⟨e, _⟩
    · rw [e]
      refine ⟨fun hnil => absurd hnil hne, fun err _ => hb⟩
    · rw [e]
      refine ⟨fun hnil => ?_, fun err herr => ?_⟩
      · have hr := resetPool_returned_nil d db2 _ hnil
        rw [hr.1]
        simp only [List.length_nil, Nat.cast_zero]
        omega
      · rw [resetPool_returned_error d db2 _ err herr]
        exact hb
  · rw [handleAttestation_no_flush d db db2 a att h]
    refine ⟨fun _ => ?_, fun err herr => absurd herr (by simp)⟩
    have h2 : ((a.pooledAttestations ++ [att]).length : Int) ≤ a.poolLimit := Int.not_lt.mp h
    show ((a.pooledAttestations ++ [att]).length : Int) ≤ a.poolLimit
      ∧ ((a.pooledAttestations ++ [att]).length : Int) ≤ a.poolLimit + 1
    exact ⟨h2, by omega⟩

/-- C14 at instances: the step that flushes with 64 active validators leaves an empty pool
under the limit 5; the step that meets an unreadable head state keeps both attestations. -/
theorem c14_witness :
    ((handleAttestation count64Deps sampleDB sampleDB
        (handleAttestation count64Deps sampleDB sampleDB NewAttestationService
          (sampleAtt [false, true] 5 0)).1
        (sampleAtt [false, false, true] 5 0)).1.pooledAttestations.length : Int)
      ≤ (handleAttestation count64Deps sampleDB sampleDB
        (handleAttestation count64Deps sampleDB sampleDB NewAttestationService
          (sampleAtt [false, true] 5 0)).1
        (sampleAtt [false, false, true] 5 0)).1.poolLimit + 1
    ∧ (handleAttestation sampleDeps failingDB failingDB
        (handleAttestation sampleDeps failingDB failingDB NewAttestationService
          (sampleAtt [false, true] 5 0)).1
        (sampleAtt [false, false, true] 5 0)).1.pooledAttestations
      = [sampleAtt [false, true] 5 0, sampleAtt [false, false, true] 5 0] :=
  ⟨((c14_pending_bound_after_step count64Deps sampleDB sampleDB
      (handleAttestation count64Deps sampleDB sampleDB NewAttestationService
        (sampleAtt [false, true] 5 0)).1 (sampleAtt [false, false, true] 5 0)).1
      (by decide)).2,
   ((c14_pending_bound_after_step sampleDeps failingDB failingDB
      (handleAttestation sampleDeps failingDB failingDB NewAttestationService
        (sampleAtt [false, true] 5 0)).1 (sampleAtt [false, false, true] 5 0)).2
      (.collaborator "head state not found") (by decide)).1⟩

/-- C15: an ingestion step calls `BatchUpdateLatestAttestation` exactly when, with the new
attestation appended, the pending attestations are more than the limit; it calls it once,
with all the pending attestations and the new one last, and the map afterwards is the one
that call leaves. A step that does not call it only appends. So in a run of the ingestion
loop from an empty pool with the limit `L`, the first `L` messages are appended without a
call, and with the message `L + 1` the run has made exactly one call, with all the
messages in the order they came. -/
theorem c15_flush_trigger (d : Deps) (db db2 : BeaconDB) (a : Service) (att : Attestation) :
    (handleAttestationTraced d db db2 a att).2
        = (if ((a.pooledAttestations ++ [att]).length : Int) > a.poolLimit
            then [a.pooledAttestations ++ [att]] else [])
    ∧ (handleAttestationTraced d db db2 a att).1 = handleAttestation d db db2 a att
    ∧ (((a.pooledAttestations ++ [att]).length : Int) > a.poolLimit →
        (handleAttestation d db db2 a att).1.store
          = (BatchUpdateLatestAttestation d db
              { a with pooledAttestations := a.pooledAttestations ++ [att] }
              (some (a.pooledAttestations ++ [att]))).1.store)
    ∧ (¬ ((a.pooledAttestations ++ [att]).length : Int) > a.poolLimit →
        handleAttestation d db db2 a att
          = ({ a with pooledAttestations := a.pooledAttestations ++ [att] }, .returned none))
    ∧ (∀ (msgs : List (BeaconDB × BeaconDB × Attestation)),
        a.pooledAttestations = [] → (msgs.length : Int) = a.poolLimit →
        attestationPool d msgs a
            = ({ a with pooledAttestations := msgs.map (fun m => m.2.2) }, [])
        ∧ (attestationPool d (msgs ++ [(db, db2, att)]) a).2
            = [msgs.map (fun m => m.2.2) ++ [att]]) := by
  refine ⟨?_, rfl, ?_, ?_, ?_⟩
  · by_cases h : ((a.pooledAttestations ++ [att]).length : Int) > a.poolLimit
    · rw [if_pos h, handleAttestationTraced_flush d db db2 a att h]
    · rw [if_neg h, handleAttestationTraced_no_flush d db db2 a att h]
  · intro h
    rcases handleAttestation_flush_cases d db db2 a att h with ⟨e, _⟩ | ⟨e, _⟩
    · rw [e]
    · rw [e, resetPool_store]
  · intro h
    exact handleAttestation_no_flush d db db2 a att h
  · intro msgs hempty hlen
    have h1 := attestationPool_no_flush d msgs a (by rw [hempty]; simp; omega)
    have h2 := attestationPool_one_flush d db db2 att msgs a (by rw [hempty]; simp; omega)
    rw [hempty] at h1 h2
    simp only [List.nil_append] at h1 h2
    exact ⟨h1, h2⟩

/-- C15 at an instance: with the limit 1 the first attestation triggers no call, and the
two attestations together trigger exactly one, with both in the order they came. -/
theorem c15_witness :
    (handleAttestationTraced sampleDeps sampleDB sampleDB NewAttestationService
        (sampleAtt [false, true] 5 0)).2 = []
    ∧ (attestationPool sampleDeps
        ([(sampleDB, sampleDB, sampleAtt [false, true] 5 0)]
          ++ [(sampleDB, sampleDB, sampleAtt [false, false, true] 5 0)])
        NewAttestationService).2
      = [[sampleAtt [false, true] 5 0] ++ [sampleAtt [false, false, true] 5 0]] :=
  ⟨(c15_flush_trigger sampleDeps sampleDB sampleDB NewAttestationService
      (sampleAtt [false, true] 5 0)).1,
   ((c15_flush_trigger sampleDeps sampleDB sampleDB NewAttestationService
      (sampleAtt [false, false, true] 5 0)).2.2.2.2
      [(sampleDB, sampleDB, sampleAtt [false, true] 5 0)] rfl (by decide)).2⟩

/-- C16: no operation deletes an entry: a key that has an entry before
`InsertAttestationIntoStore`, `updateAttestation`, `UpdateLatestAttestation`,
`BatchUpdateLatestAttestation`, `handleAttestation` or `LatestAttestationTarget` has one
afterwards, however the call ends. -/
theorem c16_latest_never_shrinks (d : Deps) (db db2 : BeaconDB) (a : Service)
    (beaconState : BeaconState) (att : Attestation) (atts : Option (List Attestation))
    (pubkey : Bytes) (entry : Option Attestation) (index : Nat) (k : Bytes)
    (hk : a.store.m k ≠ none) :
    (InsertAttestationIntoStore a pubkey entry).1.store.m k ≠ none
    ∧ (updateAttestation d a beaconState att).1.store.m k ≠ none
    ∧ (UpdateLatestAttestation d db a att).1.store.m k ≠ none
    ∧ (BatchUpdateLatestAttestation d db a atts).1.store.m k ≠ none
    ∧ (handleAttestation d db db2 a att).1.store.m k ≠ none
    ∧ (LatestAttestationTarget d db a beaconState index).1.store.m k ≠ none := by
  refine ⟨InsertAttestationIntoStore_keeps_present a pubkey entry k hk, ?_, ?_, ?_, ?_, ?_⟩
  · rw [updateAttestation_keeps_present d a beaconState att k hk]
    exact hk
  · unfold UpdateLatestAttestation
    split
    · exact hk
    · rw [updateAttestation_keeps_present d a _ att k hk]
      exact hk
  · rw [BatchUpdateLatestAttestation_keeps_present d db a atts k hk]
    exact hk
  · rw [handleAttestation_keeps_present d db db2 a att k hk]
    exact hk
  · rw [LatestAttestationTarget_service]
    exact hk

/-- C16 at an instance: validator 1 is recorded; inserting for validator 2, an update, a
batch and a query leave its key with an entry. -/
theorem c16_witness :
    (InsertAttestationIntoStore
        (InsertAttestationIntoStore NewAttestationService (sampleKey 11)
          (some (sampleAtt [false, true] 1 0))).1
        (sampleKey 12) none).1.store.m (sampleKey 11) ≠ none
    ∧ (handleAttestation sampleDeps sampleDB sampleDB
        (InsertAttestationIntoStore NewAttestationService (sampleKey 11)
          (some (sampleAtt [false, true] 1 0))).1
        (sampleAtt [false, true] 2 0)).1.store.m (sampleKey 11) ≠ none :=
  have h := c16_latest_never_shrinks sampleDeps sampleDB sampleDB
    (InsertAttestationIntoStore NewAttestationService (sampleKey 11)
      (some (sampleAtt [false, true] 1 0))).1
    sampleState (sampleAtt [false, true] 2 0) none (sampleKey 12) none 1 (sampleKey 11)
    (by decide)
  ⟨h.1, h.2.2.2.2.1⟩

/-- C17: for every pool whose lock is free, every key and every attestation pointer,
`InsertAttestationIntoStore` returns with the lock free again, the key maps to the
attestation afterwards whether or not it had an entry before, the entry of every other key
is as it was, and the pending attestations and the limit are untouched. -/
theorem c17_insert_replaces_entry (a : Service) (pubkey : Bytes) (att : Option Attestation)
    (hfree : a.store.mu = { writer := false, readers := 0 }) :
    (InsertAttestationIntoStore a pubkey att).2 = .returned ()
    ∧ (InsertAttestationIntoStore a pubkey att).1.store.m pubkey = some att
    ∧ (∀ k, k ≠ pubkey → (InsertAttestationIntoStore a pubkey att).1.store.m k = a.store.m k)
    ∧ (InsertAttestationIntoStore a pubkey att).1.store.mu = { writer := false, readers := 0 }
    ∧ (InsertAttestationIntoStore a pubkey att).1.pooledAttestations = a.pooledAttestations
    ∧ (InsertAttestationIntoStore a pubkey att).1.poolLimit = a.poolLimit := by
  rw [InsertAttestationIntoStore_of_free a pubkey att hfree]
  refine ⟨rfl, ?_, ?_, hfree, rfl, rfl⟩
  · show mapSet a.store.m pubkey att pubkey = some att
    simp [mapSet]
  · intro k hk
    show mapSet a.store.m pubkey att k = a.store.m k
    simp [mapSet, hk]

/-- C17 at an instance: validator 1 is recorded with the target epoch 1; inserting an
attestation with the target epoch 2 for its key replaces the entry. -/
theorem c17_witness :
    (InsertAttestationIntoStore NewAttestationService (sampleKey 11)
        (some (sampleAtt [false, true] 1 0))).1.store.m (sampleKey 11)
      = some (some (sampleAtt [false, true] 1 0))
    ∧ (InsertAttestationIntoStore
        (InsertAttestationIntoStore NewAttestationService (sampleKey 11)
          (some (sampleAtt [false, true] 1 0))).1
        (sampleKey 11) (some (sampleAtt [false, true] 2 0))).1.store.m (sampleKey 11)
      = some (some (sampleAtt [false, true] 2 0)) :=
  ⟨by decide,
   (c17_insert_replaces_entry
    (InsertAttestationIntoStore NewAttestationService (sampleKey 11)
      (some (sampleAtt [false, true] 1 0))).1
    (sampleKey 11) (some (sampleAtt [false, true] 2 0)) rfl).2.1⟩

/-- C18, the claim as stated fails: the committee is `[7, 1]` and the registry has four
validators, so bit 0 points past the registry while bit 1 is a valid set bit. With both
bits set the call returns nil at bit 0 and validator 1 gets no entry; with bit 0 clear and
bit 1 set validator 1 is recorded. -/
theorem c18_counterexample :
    (sampleAtt [true, true] 5 0).AggregationBits.BitAt 0 = true
    ∧ (sampleAtt [true, true] 5 0).AggregationBits.BitAt 1 = true
    ∧ strayIndexDeps.CrosslinkCommittee sampleState (strayIndexDeps.CurrentEpoch sampleState) 0
        = .ok [7, 1]
    ∧ sampleState.Validators.length ≤ 7
    ∧ 1 < sampleState.Validators.length
    ∧ (updateAttestation strayIndexDeps NewAttestationService sampleState
        (sampleAtt [true, true] 5 0)).2 = .returned none
    ∧ (updateAttestation strayIndexDeps NewAttestationService sampleState
        (sampleAtt [true, true] 5 0)).1.store.m (sampleKey 11) = none
    ∧ (updateAttestation strayIndexDeps NewAttestationService sampleState
        (sampleAtt [false, true] 5 0)).2 = .returned none
    ∧ (updateAttestation strayIndexDeps NewAttestationService sampleState
        (sampleAtt [false, true] 5 0)).1.store.m (sampleKey 11)
        = some (some (sampleAtt [false, true] 5 0)) :=
  ⟨by decide, by decide, rfl, by decide, by decide, by decide, by decide, by decide, by decide⟩

/-- C18, amended: in `update_one` a set bit `i` that is malformed (its index is at or past
the committee length, or its committee entry is at or past the validator count and fits a
signed 64-bit `int`) is not skipped on its own: the call is the loop over the bits before
`i` alone, with the return of nil where bit `i` would be met, so no set bit after `i` is
looked at or merged, valid or not. The call never ends with an error. When no set bit
precedes `i` it returns nil with the service unchanged. When exactly one set bit `p`
precedes `i`, valid, and the lock is free at the start, it returns nil with the lock free
again and the entry of bit `p` merged. -/
theorem c18_malformed_bit_ends_the_call (d : Deps) (a : Service) (beaconState : BeaconState)
    (att : Attestation) (committee : List Nat) (i : Nat)
    (hC : d.CrosslinkCommittee beaconState (d.CurrentEpoch beaconState)
      att.Data.Crosslink.Shard = .ok committee)
    (hbit : att.AggregationBits.BitAt i = true)
    (hbad : committee.length ≤ i
      ∨ ∃ c, committee[i]? = some c ∧ beaconState.Validators.length ≤ c ∧ c < 2 ^ 63) :
    updateAttestation d a beaconState att = updateLoop d beaconState att committee i 0 0 a
    ∧ (∀ err, (updateAttestation d a beaconState att).2 ≠ .returned (some err))
    ∧ ((∀ j, j < i → att.AggregationBits.BitAt j = false) →
        updateAttestation d a beaconState att = (a, .returned none))
    ∧ (∀ (p : Nat) (hp : p < committee.length)
          (hvp : committee[p] < beaconState.Validators.length), p < i →
        att.AggregationBits.BitAt p = true →
        (∀ j, j < i → j ≠ p → att.AggregationBits.BitAt j = false) →
        a.store.mu = { writer := false, readers := 0 } →
        updateAttestation d a beaconState att
          = ({ a with store :=
                { mu := { writer := false, readers := 0 }
                  m := mergeEntry d a.store.m
                    (d.ToBytes48 beaconState.Validators[committee[p]].PublicKey) att } },
             .returned none)) := by
  have hlen := BitAt_lt_Len _ i hbit
  obtain ⟨r, hr⟩ : ∃ r, att.AggregationBits.Len = i + (r + 1) :=
    ⟨att.AggregationBits.Len - i - 1, by omega⟩
  have hbad2 : committee.length ≤ i ∨
      ∃ c, committee[i]? = some c ∧ (beaconState.Validators.length : Int) ≤ toInt c := by
    rcases hbad with h | ⟨c, hc, hge, hsmall⟩
    · exact Or.inl h
    · refine Or.inr ⟨c, hc, ?_⟩
      rw [toInt_of_lt c hsmall]
      exact_mod_cast hge
  have hcut : updateAttestation d a beaconState att
      = updateLoop d beaconState att committee i 0 0 a := by
    rw [updateAttestation_committee_ok d a beaconState att committee hC, hr]
    exact updateLoop_stops_at_malformed d beaconState att committee i r hbit hbad2 i 0 0 a
      (by omega)
  refine ⟨hcut, ?_, ?_, ?_⟩
  · intro err
    rw [hcut]
    rcases updateLoop_outcome d beaconState att committee i 0 0 a with h | h | h <;>
      rw [h] <;> simp
  · intro hfirst
    rw [hcut, updateLoop_all_clear d beaconState att committee i 0 0 a
      (fun j _ h2 => hfirst j (by omega)), leave_zero]
  · intro p hp hvp hpi hbp hclear hfree
    obtain ⟨q, hq⟩ : ∃ q, i = p + (q + 1) := ⟨i - p - 1, by omega⟩
    rw [hcut, hq, updateLoop_skip d beaconState att committee p (q + 1) 0 0 a
      (fun j _ h2 => hclear j (by omega) (by omega))]
    simp only [Nat.zero_add]
    rw [updateLoop_valid d beaconState att committee q p 0 a hbp hp hvp hfree,
      updateLoop_all_clear d beaconState att committee q (p + 1) (0 + 1) _
        (fun j h1 h2 => hclear j (by omega) (by omega)),
      leave_one _ _ rfl]

/-- C18 at instances. The committee `[7, 1]`, bits 0 and 1 set: the call stops at bit 0 and
leaves a new pool as it is. The committee `[1, 7, 2]`, bits 0, 1 and 2 set: validator 1 is
merged for bit 0, the call returns nil at bit 1, and validator 2 of bit 2 gets no entry. -/
theorem c18_witness :
    updateAttestation strayIndexDeps NewAttestationService sampleState
        (sampleAtt [true, true] 5 0)
      = (NewAttestationService, .returned none)
    ∧ (updateAttestation strayMiddleDeps NewAttestationService sampleState
        (sampleAtt [true, true, true] 5 0)).2 = .returned none
    ∧ (updateAttestation strayMiddleDeps NewAttestationService sampleState
        (sampleAtt [true, true, true] 5 0)).1.store.m (sampleKey 11)
        = some (some (sampleAtt [true, true, true] 5 0))
    ∧ (updateAttestation strayMiddleDeps NewAttestationService sampleState
        (sampleAtt [true, true, true] 5 0)).1.store.m (sampleKey 12) = none :=
  have h1 := (c18_malformed_bit_ends_the_call strayIndexDeps NewAttestationService sampleState
    (sampleAtt [true, true] 5 0) [7, 1] 0 rfl (by decide)
    (Or.inr ⟨7, by decide, by decide, by decide⟩)).2.2.1 (fun j hj => absurd hj (by omega))
  have h2 := (c18_malformed_bit_ends_the_call strayMiddleDeps NewAttestationService sampleState
    (sampleAtt [true, true, true] 5 0) [1, 7, 2] 1 rfl (by decide)
    (Or.inr ⟨7, by decide, by decide, by decide⟩)).2.2.2 0 (by decide) (by decide) (by decide)
    (by decide) (fun j hj hne => absurd hj (by omega)) rfl
  ⟨h1, by rw [h2], by rw [h2]; decide, by rw [h2]; decide⟩

/-- C19 (code bug): `defer a.store.Unlock()` stands inside the loop, so the lock taken for
the first participating bit is held until the call returns. For every attestation whose
first two set bits `i < j` are valid, on a pool whose lock is free, the call requests the
write lock for bit `j` while it still holds it: it never returns, and the writer keeps the
lock, with the entry of bit `i` merged and nothing else changed. -/
theorem c19_second_lock_request_blocks (d : Deps) (a : Service) (beaconState : BeaconState)
    (att : Attestation) (committee : List Nat) (i j : Nat)
    (hC : d.CrosslinkCommittee beaconState (d.CurrentEpoch beaconState)
      att.Data.Crosslink.Shard = .ok committee)
    (hij : i < j)
    (hclear : ∀ k, k < j → k ≠ i → att.AggregationBits.BitAt k = false)
    (hbi : att.AggregationBits.BitAt i = true)
    (hbj : att.AggregationBits.BitAt j = true)
    (hi : i < committee.length) (hvi : committee[i] < beaconState.Validators.length)
    (hj : j < committee.length) (hvj : committee[j] < beaconState.Validators.length)
    (hfree : a.store.mu = { writer := false, readers := 0 }) :
    (updateAttestation d a beaconState att).2 = .blocked
    ∧ (updateAttestation d a beaconState att).1.store.mu = { writer := true, readers := 0 }
    ∧ (updateAttestation d a beaconState att).1.store.mu.Lock = none
    ∧ (updateAttestation d a beaconState att).1.store.m
        = mergeEntry d a.store.m (d.ToBytes48 beaconState.Validators[committee[i]].PublicKey)
            att := by
  rw [updateAttestation_committee_ok d a beaconState att committee hC,
    updateLoop_two_valid_bits d beaconState att committee a i j hij hclear hbi hbj hi hvi hj hvj
      hfree]
  exact ⟨rfl, rfl, rfl, rfl⟩

/-- C19 at the specification's own scenario: four validators, the committee `[0, 1, 2, 3]`,
bits 1 and 3 set, target epoch 5. The call does not return and the lock stays with the
writer. -/
theorem c19_witness :
    (updateAttestation sampleDeps NewAttestationService sampleState
        (sampleAtt [false, true, false, true] 5 0)).2 = .blocked
    ∧ (updateAttestation sampleDeps NewAttestationService sampleState
        (sampleAtt [false, true, false, true] 5 0)).1.store.mu
        = { writer := true, readers := 0 } :=
  have h := c19_second_lock_request_blocks sampleDeps NewAttestationService sampleState
    (sampleAtt [false, true, false, true] 5 0) [0, 1, 2, 3] 1 3 rfl (by decide)
    (fun k hk hne => by
      have h3 : k = 0 ∨ k = 2 := by omega
      rcases h3 with h3 | h3 <;> subst h3 <;> rfl)
    (by decide) (by decide) (by decide) (by decide) (by decide) (by decide) rfl
  ⟨h.1, h.2.1⟩

end AttestationPool
